import Mathlib

/-!
Verification development for the Pokle solver engine
(`src/pokle_solver/solver.py`, `src/pokle_solver/card.py`).

The definitions below are a shallow embedding of the Python source:
pure functions become Lean functions, the interactive pruning step becomes
an explicit state-passing function, and NumPy int8 card indices become
natural numbers / integers.  Python dictionaries that are iterated in
insertion order are embedded through `List.dedup` / `List.filter`, which
preserve first-occurrence order.
-/

namespace Pokle

/-- Card suits, in the fixed index order used by the repository
(`test_card.py` pins `card_index`: C=0, D=1, H=2, S=3). -/
inductive Suit where
  | C
  | D
  | H
  | S
deriving DecidableEq, Repr

/-- Index of a suit inside the fixed suit ordering.
Modelled from the spec: `card.py` in the source tree does not contain the
`card_index` property nor `VALID_SUITS` (only their tests and callers are
present); spec §3 fixes `index = (rank−2)·4 + suit_index` with suit order
C, D, H, S, matching `tests/test_card.py`. -/
def suitIndex : Suit → ℕ
  | .C => 0
  | .D => 1
  | .H => 2
  | .S => 3

/-- A playing card (`card.py`, class `Card`): `rank ∈ {2,…,14}` with
14 = Ace, and a suit.  Equality is on (rank, suit). -/
structure Card where
  rank : ℕ
  suit : Suit
deriving DecidableEq, Repr

/-- A card is a member of the standard deck. -/
def Card.wf (c : Card) : Prop := 2 ≤ c.rank ∧ c.rank ≤ 14

instance (c : Card) : Decidable c.wf := by
  unfold Card.wf
  infer_instance

/-- The 0–51 card index.
Modelled from the spec: spec §3, `index = (rank−2)·4 + suit_index`
(the property is absent from the `card.py` under `src/`; the formula is
also pinned by `tests/test_card.py`). -/
def cardIndex (c : Card) : ℕ := (c.rank - 2) * 4 + suitIndex c.suit

/-- Rank minimum (spec §3: rank ∈ {2,…,14}). -/
def RANK_MIN : ℕ := 2

/-- Rank maximum. -/
def RANK_MAX : ℕ := 14

/-- Suits in their fixed order (spec §3: `suit ∈ {C,D,H,S}` fixed ordering). -/
def SUITS : List Suit := [.C, .D, .H, .S]

/-- The 52-card master deck (`solver.py`, `MASTER_DECK`): one card per
(rank, suit) pair, rank-major in the fixed suit order. -/
def MASTER_DECK : List Card :=
  (List.range (RANK_MAX + 1 - RANK_MIN)).flatMap fun i =>
    SUITS.map fun s => Card.mk (RANK_MIN + i) s

/-! ## Board comparator (`Solver.__compare_tables`, solver.py lines 605-663)

The NumPy kernel receives the two boards as arrays of int8 card indices,
splits every index into `index // 4` (rank part) and `index % 4`
(suit part), walks the three flop positions in order — marking the
rank/suit slots of a green-claimed answer card with −1 — and then compares
the turn and river positions positionally.  We embed the indices as
integers because of the −1 marks. -/

/-- Number of flop cards. -/
def FLOP_SIZE : ℕ := 3

/-- Number of cards on a full board. -/
def RIVER_SIZE : ℕ := 5

/-- One step of the flop loop of `__compare_tables`: given the current
position's guess index / rank part / suit part and the mutable state
(the remaining answer-flop rank and suit slots), produce the color and
the updated state.  `aFlop` is the unmutated answer flop (the green test
`guess_table[i] in answer_flop` reads the original array). -/
def flopStep (aFlop : List ℤ) (gIdx gRank gSuit : ℤ)
    (st : List ℤ × List ℤ) : ℕ × (List ℤ × List ℤ) :=
  let aRanks := st.1
  let aSuits := st.2
  if gIdx ∈ aFlop then
    let j := aFlop.indexOf gIdx
    (2, (aRanks.set j (-1), aSuits.set j (-1)))
  else if gRank ∈ aRanks ∨ gSuit ∈ aSuits then
    (1, (aRanks, aSuits))
  else
    (0, (aRanks, aSuits))

/-- Walk the flop positions in order, threading the marked rank/suit state. -/
def flopLoop (aFlop : List ℤ) :
    List (ℤ × ℤ × ℤ) → (List ℤ × List ℤ) → List ℕ
  | [], _ => []
  | g :: gs, st =>
    let r := flopStep aFlop g.1 g.2.1 g.2.2 st
    r.1 :: flopLoop aFlop gs r.2

/-- Positional comparison used for the turn and the river positions. -/
def positionalColor (gIdx aIdx : ℤ) : ℕ :=
  if gIdx = aIdx then 2
  else if gIdx / 4 = aIdx / 4 ∨ gIdx % 4 = aIdx % 4 then 1
  else 0

/-- The per-position color list of `__compare_tables` on one pair of
boards, given as lists of card indices (guess first). -/
def compareColors (guess answer : List ℤ) : List ℕ :=
  let guessFlop := guess.take FLOP_SIZE
  let answerFlop := answer.take FLOP_SIZE
  let flopColors :=
    flopLoop answerFlop
      (guessFlop.map fun g => (g, g / 4, g % 4))
      (answerFlop.map (· / 4), answerFlop.map (· % 4))
  let tailColors :=
    (List.zip (guess.drop FLOP_SIZE) (answer.drop FLOP_SIZE)).map
      fun p => positionalColor p.1 p.2
  flopColors ++ tailColors

/-- Encoding of the five colors as a base-10 integer
(`place_multiplier` loop at the end of `__compare_tables`). -/
def encodeColors (colors : List ℕ) : ℕ :=
  (colors.foldl (fun acc c => (acc.1 / 10, acc.2 + c * (acc.1 / 10)))
    (100000, 0)).2

/-- `__compare_tables` on a single pair of boards of card indices. -/
def compareTables (guess answer : List ℤ) : ℕ :=
  encodeColors (compareColors guess answer)

/-- Per-position colors of one board against another. -/
def compareColorsBoards (guess answer : List Card) : List ℕ :=
  compareColors (guess.map fun c => (cardIndex c : ℤ))
    (answer.map fun c => (cardIndex c : ℤ))

/-- The comparator on boards of `Card`s: encode both boards as card
indices and run `__compare_tables`. -/
def compareBoards (guess answer : List Card) : ℕ :=
  compareTables (guess.map fun c => (cardIndex c : ℤ))
    (answer.map fun c => (cardIndex c : ℤ))

/-! ## Hand evaluator (`Solver.__rank_hand`, solver.py lines 233-440)

Python dictionaries (`rank_groups`, `suit_groups`) iterate in key-insertion
order; we recover the same groups through `List.dedup` (first-occurrence
order) and `List.filter` (original order inside a group).  Python's
`list.sort(..., reverse=True)` is a stable descending sort, embedded as a
stable insertion sort `sortDescLt`.  Where the source sorts a Python `set`
(whose iteration order is unspecified) only the ranks of the result are
consumed, so any stable determinization yields the same observable value;
we sort the first-occurrence dedup of the card list. -/

/-- Hand rank constants (solver.py lines 31-39). -/
def HAND_RANK_HIGH_CARD : ℕ := 1

/-- Pair. -/
def HAND_RANK_PAIR : ℕ := 2

/-- Two pair. -/
def HAND_RANK_TWO_PAIR : ℕ := 3

/-- Three of a kind. -/
def HAND_RANK_THREE_KIND : ℕ := 4

/-- Straight. -/
def HAND_RANK_STRAIGHT : ℕ := 5

/-- Flush. -/
def HAND_RANK_FLUSH : ℕ := 6

/-- Full house. -/
def HAND_RANK_FULL_HOUSE : ℕ := 7

/-- Four of a kind. -/
def HAND_RANK_FOUR_KIND : ℕ := 8

/-- Straight flush. -/
def HAND_RANK_STRAIGHT_FLUSH : ℕ := 9

/-- The ace rank. -/
def RANK_ACE : ℕ := 14

/-- Result of evaluating a poker hand (`HandRanking` dataclass). -/
structure HandRanking where
  rank : ℕ
  tieBreakers : List ℕ
  bestHand : List Card
deriving DecidableEq, Repr

/-- Stable insert for a descending sort: `x` is placed before the first
element `y` it is strictly greater than (`lt y x`); among equals the
earlier element of the original list stays first, exactly as Python's
stable `sort(reverse=True)`. -/
def insertDescLt (lt : α → α → Bool) (x : α) : List α → List α
  | [] => [x]
  | y :: ys => if lt x y then y :: insertDescLt lt x ys else x :: y :: ys

/-- Stable descending insertion sort, the embedding of Python's stable
`sorted(..., reverse=True)` / `list.sort(reverse=True)`. -/
def sortDescLt (lt : α → α → Bool) : List α → List α
  | [] => []
  | x :: xs => insertDescLt lt x (sortDescLt lt xs)

/-- Descending sort keyed by a natural number. -/
def sortDescBy (key : α → ℕ) (l : List α) : List α :=
  sortDescLt (fun a b => key a < key b) l

/-- The cards of one rank, in original card order
(`rank_groups[rank]`, built in insertion order). -/
def rankGroup (cards : List Card) (r : ℕ) : List Card :=
  cards.filter fun c => c.rank = r

/-- The cards of one suit, in original card order (`suit_groups[suit]`). -/
def suitGroup (cards : List Card) (s : Suit) : List Card :=
  cards.filter fun c => c.suit = s

/-- The straight scan over the distinct ranks sorted descending:
first window `i` with `ranks[i] - ranks[i+4] = 4`
(solver.py lines 289-292). -/
def straightScan : List ℕ → Option ℕ
  | r :: rest =>
    match rest.get? 3 with
    | some r4 => if r = r4 + 4 then some r else straightScan rest
    | none => none
  | [] => none

/-- Sort key used for the wheel (A-5-4-3-2): the ace counts as 1. -/
def wheelKey (c : Card) : ℕ := if c.rank = RANK_ACE then 1 else c.rank

/-- The straight-flush branch (solver.py lines 299-332): `none` when the
straight is not realized inside the flush suit, and the evaluator falls
through to the remaining categories. -/
def straightFlushCheck (flushCards : List Card) (h : ℕ) : Option HandRanking :=
  let flushRanks := flushCards.map fun c => c.rank
  if h = 5 then
    if RANK_ACE ∈ flushRanks ∧ 5 ∈ flushRanks ∧ 4 ∈ flushRanks ∧
        3 ∈ flushRanks ∧ 2 ∈ flushRanks then
      let best := sortDescBy wheelKey (flushCards.filter fun c =>
        c.rank = RANK_ACE ∨ c.rank = 5 ∨ c.rank = 4 ∨ c.rank = 3 ∨ c.rank = 2)
      some ⟨HAND_RANK_STRAIGHT_FLUSH, [5], best.take 5⟩
    else none
  else
    if (List.range' (h - 4) 5).all (fun r => r ∈ flushRanks) then
      let best := flushCards.filter fun c => h ≥ c.rank ∧ c.rank ≥ h - 4
      some ⟨HAND_RANK_STRAIGHT_FLUSH, [h], best.take 5⟩
    else none

/-- `Solver.__rank_hand(table, hole)`: the best five-card poker hand from
the hole cards plus the table, with category, tiebreakers and the cards
that realize it.  Faithful to the source's early-return cascade,
including its quirks (`best_hand` keeps only the top card for a high
card, the straight `best_hand` is the first five filtered cards, which
can contain a duplicated rank). -/
def rankHand (table hole : List Card) : HandRanking :=
  let cards := hole ++ table
  let rankKeys := (cards.map fun c => c.rank).dedup
  let suitKeys := (cards.map fun c => c.suit).dedup
  let flushCards? : Option (List Card) :=
    (suitKeys.find? fun s => 5 ≤ (suitGroup cards s).length).map fun s =>
      sortDescBy (fun c => c.rank) (suitGroup cards s)
  let uniqueRanks := sortDescBy id rankKeys
  let straightHigh? : Option ℕ :=
    match straightScan uniqueRanks with
    | some h => some h
    | none =>
      if RANK_ACE ∈ rankKeys ∧ 5 ∈ rankKeys ∧ 2 ∈ rankKeys ∧
          3 ∈ rankKeys ∧ 4 ∈ rankKeys then some 5
      else none
  let sf? : Option HandRanking :=
    match flushCards?, straightHigh? with
    | some fc, some h => straightFlushCheck fc h
    | _, _ => none
  match sf? with
  | some res => res
  | none =>
    -- the source's loop breaks as soon as a quad is found, but three_ranks
    -- and pair_ranks are only consumed when no quad exists, in which case
    -- the loop ran to completion; the full filters are observationally equal
    let fourRank? := rankKeys.find? fun r => (rankGroup cards r).length = 4
    let threeRanks := rankKeys.filter fun r => (rankGroup cards r).length = 3
    let pairRanks := rankKeys.filter fun r => (rankGroup cards r).length = 2
    match fourRank? with
    | some q => ⟨HAND_RANK_FOUR_KIND, [q], rankGroup cards q⟩
    | none =>
      if (threeRanks ≠ [] ∧ pairRanks ≠ []) ∨ 1 < threeRanks.length then
        let maxThree := threeRanks.foldl max 0
        let trio := rankGroup cards maxThree
        let pairInfo :=
          if pairRanks ≠ [] then
            let mp := pairRanks.foldl max 0
            (rankGroup cards mp, mp)
          else
            let mn := threeRanks.foldl min 15
            ((rankGroup cards mn).take 2, mn)
        ⟨HAND_RANK_FULL_HOUSE, [maxThree, pairInfo.2], trio ++ pairInfo.1⟩
      else
        match flushCards? with
        | some fc =>
          let hand := fc.take 5
          ⟨HAND_RANK_FLUSH, hand.map (fun c => c.rank), hand⟩
        | none =>
          match straightHigh? with
          | some h =>
            if h = 5 then
              let best := sortDescBy wheelKey (cards.filter fun c =>
                c.rank = RANK_ACE ∨ c.rank = 5 ∨ c.rank = 4 ∨
                c.rank = 3 ∨ c.rank = 2)
              ⟨HAND_RANK_STRAIGHT, [5], best.take 5⟩
            else
              let best := sortDescBy (fun c => c.rank)
                (cards.filter fun c => h ≥ c.rank ∧ c.rank ≥ h - 4)
              ⟨HAND_RANK_STRAIGHT, [h], best.take 5⟩
          | none =>
            if threeRanks ≠ [] then
              let maxThree := threeRanks.foldl max 0
              let trio := rankGroup cards maxThree
              let remaining := sortDescBy (fun c => c.rank)
                (cards.dedup.filter fun c => c ∉ trio)
              ⟨HAND_RANK_THREE_KIND,
                maxThree :: (remaining.take 2).map (fun c => c.rank), trio⟩
            else if 2 ≤ pairRanks.length then
              let sortedPairs := sortDescBy id pairRanks
              let pr1 := sortedPairs.headD 0
              let pr2 := (sortedPairs.drop 1).headD 0
              let twoPair := rankGroup cards pr1 ++ rankGroup cards pr2
              let remaining := sortDescBy (fun c => c.rank)
                (cards.dedup.filter fun c => c ∉ twoPair)
              let k := match remaining with
                | c :: _ => c.rank
                | [] => 0
              ⟨HAND_RANK_TWO_PAIR, [pr1, pr2, k], twoPair⟩
            else if pairRanks ≠ [] then
              let pr := pairRanks.headD 0
              let pair := rankGroup cards pr
              let remaining := sortDescBy (fun c => c.rank)
                (cards.dedup.filter fun c => c ∉ pair)
              ⟨HAND_RANK_PAIR,
                pr :: (remaining.take 3).map (fun c => c.rank), pair⟩
            else
              let best := (sortDescBy (fun c => c.rank) cards).take 5
              ⟨HAND_RANK_HIGH_CARD, best.map (fun c => c.rank), best.take 1⟩

/-! ## Phase validator and board enumerator
(`Solver.__evaluate_phase`, `__possible_flops`, `__find_valid_next_phase`,
`__possible_turns`, `__possible_rivers`, `solve`; solver.py lines 442-603
and 944-967) -/

/-- Solver construction data: the three hole pairs and the expected
ordering at each phase (strongest player first). -/
structure SolverCfg where
  p1hole : List Card
  p2hole : List Card
  p3hole : List Card
  flopHandRanks : List ℕ
  turnHandRanks : List ℕ
  riverHandRanks : List ℕ

/-- The set of all six hole cards (`self.__all_hole_cards`). -/
def allHoleCards (cfg : SolverCfg) : Finset Card :=
  (cfg.p1hole ++ cfg.p2hole ++ cfg.p3hole).toFinset

/-- The comparison key of a hand: `(rank, tie_breakers)`. -/
def handKey (h : HandRanking) : ℕ × List ℕ := (h.rank, h.tieBreakers)

/-- Python's list `<` on the tiebreaker tuples: lexicographic, a strict
prefix is smaller. -/
def keyLtList : List ℕ → List ℕ → Bool
  | [], [] => false
  | [], _ :: _ => true
  | _ :: _, [] => false
  | a :: as, b :: bs =>
    if a < b then true else if b < a then false else keyLtList as bs

/-- Python's tuple `<` on `(rank, tie_breakers)` keys. -/
def keyLt (x y : ℕ × List ℕ) : Bool :=
  if x.1 < y.1 then true else if y.1 < x.1 then false else keyLtList x.2 y.2

/-- The cards a hand contributes to the cards-used accumulator: a flush
contributes nothing, every other category contributes its `best_hand`
(solver.py lines 513-515). -/
def usedContribution (h : HandRanking) : Finset Card :=
  if h.rank = HAND_RANK_FLUSH then ∅ else h.bestHand.toFinset

/-- The `cards_used_current_phase` set of one evaluation: the union of
the three players' contributions (flush hands contribute nothing). -/
def phaseUsed (cfg : SolverCfg) (table : List Card) : Finset Card :=
  usedContribution (rankHand table cfg.p1hole) ∪
    usedContribution (rankHand table cfg.p2hole) ∪
    usedContribution (rankHand table cfg.p3hole)

/-- `Solver.__evaluate_phase`: rank the three players' hands in order
P1, P2, P3 with early rejection of ties, accumulate the cards used
(excluding flush hands, minus the hole cards), optionally require that
every table card was used, and accept iff the strongest-to-weakest
player order equals the expected ordering. -/
def evaluatePhase (cfg : SolverCfg) (table : List Card) (expected : List ℕ)
    (prevUsed : Option (Finset Card)) (validateAll : Bool) :
    Bool × Finset Card :=
  let h1 := rankHand table cfg.p1hole
  let h2 := rankHand table cfg.p2hole
  let h3 := rankHand table cfg.p3hole
  if handKey h2 = handKey h1 then (false, ∅)
  else if handKey h3 = handKey h1 ∨ handKey h3 = handKey h2 then (false, ∅)
  else
    let acc₀ := match prevUsed with
      | some prev => prev ∪ phaseUsed cfg table
      | none => phaseUsed cfg table
    let acc := acc₀ \ allHoleCards cfg
    if validateAll ∧ acc ≠ table.toFinset then (false, acc)
    else
      let entries := [(1, handKey h1), (2, handKey h2), (3, handKey h3)]
      let sorted := sortDescLt (fun a b => keyLt a.2 b.2) entries
      (decide (sorted.map Prod.fst = expected), acc)

/-- The deck with the six hole cards removed (`self.current_deck` after
`__possible_flops` strips the holes).  The source materializes a Python
set whose iteration order is unspecified; we determinize to the master
deck order, which leaves every membership-level property unchanged. -/
def currentDeck (cfg : SolverCfg) : List Card :=
  MASTER_DECK.filter fun c => c ∉ allHoleCards cfg

/-- `Solver.__possible_flops`: all 3-card combinations of the deck minus
holes that pass the flop-phase evaluation, paired with their used-set. -/
def possibleFlops (cfg : SolverCfg) : List (List Card × Finset Card) :=
  (List.sublistsLen FLOP_SIZE (currentDeck cfg)).filterMap fun flop =>
    let r := evaluatePhase cfg flop cfg.flopHandRanks none false
    if r.1 then some (flop, r.2) else none

/-- `Solver.__find_valid_next_phase`: extend every accepted previous
table by each card of the remaining deck and keep the extensions that
pass this phase's evaluation. -/
def findValidNextPhase (cfg : SolverCfg)
    (prev : List (List Card × Finset Card)) (expected : List ℕ)
    (validateAll : Bool) : List (List Card × Finset Card) :=
  prev.flatMap fun pr =>
    ((currentDeck cfg).filter fun c => c ∉ pr.1).filterMap fun nextCard =>
      let t := pr.1 ++ [nextCard]
      let r := evaluatePhase cfg t expected (some pr.2) validateAll
      if r.1 then some (t, r.2) else none

/-- `Solver.__possible_turns`. -/
def possibleTurns (cfg : SolverCfg) (flops : List (List Card × Finset Card)) :
    List (List Card × Finset Card) :=
  findValidNextPhase cfg flops cfg.turnHandRanks false

/-- `Solver.__possible_rivers`: the river phase additionally validates
that every board card was used at some phase. -/
def possibleRivers (cfg : SolverCfg) (turns : List (List Card × Finset Card)) :
    List (List Card × Finset Card) :=
  findValidNextPhase cfg turns cfg.riverHandRanks true

/-- `Solver.solve()`: the complete pipeline, dropping the used-set
metadata. -/
def solveModel (cfg : SolverCfg) : List (List Card) :=
  (possibleRivers cfg (possibleTurns cfg (possibleFlops cfg))).map Prod.fst

/-! ## Guess selector (`Solver.get_maxh_table`, solver.py lines 742-838)

The source builds a cross join of a *pool* of guess rows against the full
candidate list as answer rows, computes `__compare_tables` for every pair,
groups the codes per guess, and picks a guess whose Shannon entropy
(base 2, via `scipy.stats.entropy` over the code proportions) is maximal.
When `use_sampling` holds and there are more than 50 candidates, the pool
is `rivers_df.sample(n=50, with_replacement=False)` — a uniform unseeded
draw of *guess* rows; the answer side is always the full candidate list.
We embed the unseeded draw as an explicit `sample` argument constrained
by `legalSample`, and the entropy comparison by the exact integer weight
`∏ count^count` over the code multiset: for profiles of equal length,
entropy is strictly decreasing in this weight (`profileEntropy_le_iff`
below), so maximizing entropy is minimizing the weight, with no floating
point involved.  The source's final `row(0)` picks one row of the
entropy-maximal group of an *unordered* grouping, so the code's result is
some member of `maxEntropyTables`; all our concrete instances make that
list a singleton. -/

/-- The color codes of one candidate guess against each answer, in answer
order (the `comparison_list` aggregation). -/
def profileCodes (g : List Card) (answers : List (List Card)) : List ℕ :=
  answers.map fun a => compareBoards g a

/-- The multiplicities of the distinct codes of a profile
(the `value_counts` step, before normalization). -/
def codeCounts (l : List ℕ) : List ℕ :=
  l.dedup.map fun c => l.count c

/-- Exact integer encoding of the entropy comparison: `∏ count^count`.
For fixed profile length, Shannon entropy is strictly antitone in this
weight (see `profileEntropy_le_iff`). -/
def entropyWeight (l : List ℕ) : ℕ :=
  ((codeCounts l).map fun c => c ^ c).prod

/-- The Shannon entropy (base 2) of the code distribution of a profile:
`entropy(proportions, base=2)` of the `value_counts(normalize=True)`
output in the source. -/
noncomputable def profileEntropy (l : List ℕ) : ℝ :=
  ((codeCounts l).map fun (c : ℕ) =>
    -(((c : ℝ) / l.length) * Real.logb 2 ((c : ℝ) / l.length))).sum

/-- The pool of guesses the selector scores: the sampled rows when
sampling is on and more than 50 candidates exist, else all candidates
(the `if use_sampling and len(rivers) > 50` branch). -/
def getMaxhPool (rivers sample : List (List Card)) (useSampling : Bool) :
    List (List Card) :=
  if useSampling ∧ 50 < rivers.length then sample else rivers

/-- The guesses of the pool whose profile against `answers` has maximal
entropy, in pool order: mirror of the source's
`filter(entropy == entropy.max())`, with maximal entropy expressed as
minimal weight (one score per guess, as the grouped frame holds one
entropy per guess row). -/
def maxEntropyTables (pool answers : List (List Card)) : List (List Card) :=
  let scored := pool.map fun g => (g, entropyWeight (profileCodes g answers))
  match (scored.map Prod.snd).min? with
  | some w => (scored.filter fun p => p.2 = w).map Prod.fst
  | none => []

/-- The set of guesses `get_maxh_table` may return on candidate list
`rivers` when the unseeded draw produced `sample`: the entropy-maximal
guesses of the pool, each scored against the full candidate list. -/
def getMaxhCandidates (rivers sample : List (List Card))
    (useSampling : Bool) : List (List Card) :=
  maxEntropyTables (getMaxhPool rivers sample useSampling) rivers

/-- A list that `DataFrame.sample(n=50, with_replacement=False)` can
produce from `rivers`: 50 pairwise-distinct rows of `rivers`. -/
def legalSample (rivers sample : List (List Card)) : Prop :=
  sample.length = 50 ∧ sample.Nodup ∧ ∀ b ∈ sample, b ∈ rivers

/-! ## Pruner (`Solver.next_table_guess`, solver.py lines 840-942)

The interactive state is embedded explicitly; the cached cross-join
`__compared_tables` is represented by its answer column
(`comparedAnswers`) together with the fact that the `comparison` column
holds `__compare_tables` of the guess against each answer.  The filter on
`rivers_str` / `comparison` then becomes a filter of the answers by their
comparison code against the current guess. -/

/-- A color feedback symbol: grey, yellow or green. -/
inductive Color where
  | e
  | y
  | g
deriving DecidableEq, Repr

/-- `color_int_dict = {"e": 0, "y": 1, "g": 2}`. -/
def colorInt : Color → ℕ
  | .e => 0
  | .y => 1
  | .g => 2

/-- The mutable solver state touched by the interactive loop. -/
structure SolverState where
  validTables : List (List Card)
  maxhTable : List Card
  printMaxhTable : List Card
  usedTables : List (List Card)
  currentColors : List Color
  comparedAnswers : List (List Card)

/-- The color remap of `next_table_guess` (solver.py lines 915-917):
`dict(zip(print_maxh_table, table_colors))` read back in internal guess
order.  A Python dict keeps the *last* binding of a duplicated key, hence
the lookup on the reversed association list.  A missing card would raise
`KeyError` in the source; the `.getD .e` default is never reached in the
verified scenarios (the print table is a permutation of the guess). -/
def remapColors (printT : List Card) (tableColors : List Color)
    (guess : List Card) : List Color :=
  guess.map fun c =>
    (List.lookup c (printT.zip tableColors).reverse).getD Color.e

/-- `Solver.next_table_guess(table_colors)`: validate, record the raw
colors, remap them to the internal card order when a previous guess
exists, encode them, filter the cached comparisons, and either commit the
shrunk candidate list or fail leaving the candidate list untouched. -/
def nextTableGuess (s : SolverState) (tableColors : List Color) :
    SolverState × Except String (List (List Card)) :=
  if s.maxhTable = [] then
    (s, .error "No current guess available. Please run get_maxh_table first.")
  else
    let currentGuess := s.maxhTable
    if s.validTables = [] then
      (s, .error "No possible rivers calculated. Please run solve first.")
    else if currentGuess.length ≠ RIVER_SIZE then
      (s, .error "Current guess must be a complete table.")
    else if tableColors.length ≠ RIVER_SIZE then
      (s, .error "Table colors must be a list of 5 colors.")
    else
      let s1 := { s with currentColors := tableColors }
      let colors :=
        if s1.usedTables ≠ [] then
          remapColors s1.printMaxhTable tableColors currentGuess
        else tableColors
      let resultValue := encodeColors (colors.map colorInt)
      let matching := s1.comparedAnswers.filter fun a =>
        compareBoards currentGuess a = resultValue
      if matching ≠ [] then
        ({ s1 with validTables := matching, comparedAnswers := matching },
          .ok matching)
      else
        (s1, .error "No rivers match the given colors for the guess.")

/-! ## Statement vocabulary -/

/-- The three players' `(category, tiebreakers)` keys at a table are
pairwise distinct (no ties at the phase). -/
def pairwiseDistinctKeys (cfg : SolverCfg) (table : List Card) : Prop :=
  handKey (rankHand table cfg.p1hole) ≠ handKey (rankHand table cfg.p2hole) ∧
  handKey (rankHand table cfg.p1hole) ≠ handKey (rankHand table cfg.p3hole) ∧
  handKey (rankHand table cfg.p2hole) ≠ handKey (rankHand table cfg.p3hole)

/-- The strongest-to-weakest player order at a table: sort the three
players by `(category, tiebreakers)` descending and read the player
numbers back. -/
def phaseOrder (cfg : SolverCfg) (table : List Card) : List ℕ :=
  (sortDescLt (fun a b => keyLt a.2 b.2)
    [(1, handKey (rankHand table cfg.p1hole)),
     (2, handKey (rankHand table cfg.p2hole)),
     (3, handKey (rankHand table cfg.p3hole))]).map Prod.fst

/-- The union over the flop, turn and river phases of the `best_five`
sets of the three players' hands, excluding flush contributions, minus
the six hole cards (the quantity of claim C8, recomputed from the board
alone). -/
def bestFiveUnionMinusHoles (cfg : SolverCfg) (B : List Card) : Finset Card :=
  (phaseUsed cfg (B.take 3) ∪ phaseUsed cfg (B.take 4) ∪ phaseUsed cfg B) \
    allHoleCards cfg

/-- Scenario C guess board: `[4C, 9H, 2C, AD, 3D]`. -/
def scenCGuess : List Card :=
  [⟨4, .C⟩, ⟨9, .H⟩, ⟨2, .C⟩, ⟨14, .D⟩, ⟨3, .D⟩]

/-- Scenario C answer board: `[2C, 9S, 2S, 4S, 5S]`. -/
def scenCAnswer : List Card :=
  [⟨2, .C⟩, ⟨9, .S⟩, ⟨2, .S⟩, ⟨4, .S⟩, ⟨5, .S⟩]

/-- Scenario C guess with flop positions 0 and 2 transposed:
`[2C, 9H, 4C, AD, 3D]`. -/
def scenCGuessSwapped : List Card :=
  [⟨2, .C⟩, ⟨9, .H⟩, ⟨4, .C⟩, ⟨14, .D⟩, ⟨3, .D⟩]

instance (cfg : SolverCfg) (t : List Card) :
    Decidable (pairwiseDistinctKeys cfg t) := by
  unfold pairwiseDistinctKeys
  infer_instance

/-- A sample board used in witnesses: `[2C, 3D, 4H, 5S, 6C]`. -/
def exB1 : List Card :=
  [⟨2, .C⟩, ⟨3, .D⟩, ⟨4, .H⟩, ⟨5, .S⟩, ⟨6, .C⟩]

/-- Witness solver configuration: P1 = [9C, 8D], P2 = [8C, 7D],
P3 = [2C, 2D]; expected ordering [1, 2, 3] at every phase. -/
def exCfg : SolverCfg :=
  ⟨[⟨9, .C⟩, ⟨8, .D⟩], [⟨8, .C⟩, ⟨7, .D⟩], [⟨2, .C⟩, ⟨2, .D⟩],
    [1, 2, 3], [1, 2, 3], [1, 2, 3]⟩

/-- An accepted flop for `exCfg`: `[5H, 6S, 7H]`. -/
def exFlop : List Card := [⟨5, .H⟩, ⟨6, .S⟩, ⟨7, .H⟩]

/-- The accepted turn extension `[5H, 6S, 7H, 4D]`. -/
def exTurn : List Card := [⟨5, .H⟩, ⟨6, .S⟩, ⟨7, .H⟩, ⟨4, .D⟩]

/-- The accepted full board `[5H, 6S, 7H, 4D, 3S]`. -/
def exRiver : List Card :=
  [⟨5, .H⟩, ⟨6, .S⟩, ⟨7, .H⟩, ⟨4, .D⟩, ⟨3, .S⟩]

/-- The used-set reported by the flop evaluation of `exFlop`. -/
def exUF : Finset Card :=
  (evaluatePhase exCfg exFlop exCfg.flopHandRanks none false).2

/-- The used-set reported by the turn evaluation of `exTurn`. -/
def exUT : Finset Card :=
  (evaluatePhase exCfg exTurn exCfg.turnHandRanks (some exUF) false).2

/-- Configuration of the straight-flush scenario: P1 holds [KH, AH]. -/
def exCfg10 : SolverCfg :=
  ⟨[⟨13, .H⟩, ⟨14, .H⟩], [⟨2, .C⟩, ⟨3, .C⟩], [⟨5, .D⟩, ⟨6, .D⟩],
    [1, 2, 3], [1, 2, 3], [1, 2, 3]⟩

/-- Flop [10H, JH, QH]: P1 makes a royal flush (category 9). -/
def exTable10 : List Card := [⟨10, .H⟩, ⟨11, .H⟩, ⟨12, .H⟩]

/-- The 51-board candidate list used to separate the sampled-guess
semantics of the selector from the sampled-answer semantics the claim
describes (51 > 50 engages the sampling branch). -/
def cexR : List (List Card) :=
  [[⟨7, .C⟩, ⟨4, .D⟩, ⟨8, .D⟩, ⟨12, .D⟩, ⟨2, .S⟩],
   [⟨3, .C⟩, ⟨10, .H⟩, ⟨3, .H⟩, ⟨7, .S⟩, ⟨11, .D⟩],
   [⟨2, .S⟩, ⟨10, .C⟩, ⟨5, .D⟩, ⟨2, .H⟩, ⟨3, .D⟩],
   [⟨8, .S⟩, ⟨8, .H⟩, ⟨3, .C⟩, ⟨5, .S⟩, ⟨3, .D⟩],
   [⟨10, .S⟩, ⟨8, .S⟩, ⟨2, .S⟩, ⟨11, .C⟩, ⟨3, .S⟩],
   [⟨5, .H⟩, ⟨12, .C⟩, ⟨11, .D⟩, ⟨2, .S⟩, ⟨11, .C⟩],
   [⟨11, .D⟩, ⟨8, .D⟩, ⟨2, .S⟩, ⟨5, .H⟩, ⟨2, .H⟩],
   [⟨10, .S⟩, ⟨4, .C⟩, ⟨6, .H⟩, ⟨8, .H⟩, ⟨4, .D⟩],
   [⟨10, .H⟩, ⟨3, .S⟩, ⟨11, .C⟩, ⟨6, .S⟩, ⟨10, .S⟩],
   [⟨12, .S⟩, ⟨4, .S⟩, ⟨3, .H⟩, ⟨11, .D⟩, ⟨11, .C⟩],
   [⟨12, .C⟩, ⟨5, .C⟩, ⟨7, .S⟩, ⟨3, .H⟩, ⟨10, .S⟩],
   [⟨13, .D⟩, ⟨3, .C⟩, ⟨11, .C⟩, ⟨2, .S⟩, ⟨11, .S⟩],
   [⟨5, .D⟩, ⟨9, .S⟩, ⟨12, .S⟩, ⟨10, .H⟩, ⟨8, .S⟩],
   [⟨14, .D⟩, ⟨7, .C⟩, ⟨9, .D⟩, ⟨11, .D⟩, ⟨7, .S⟩],
   [⟨6, .S⟩, ⟨5, .S⟩, ⟨14, .H⟩, ⟨4, .S⟩, ⟨13, .C⟩],
   [⟨14, .D⟩, ⟨5, .S⟩, ⟨3, .D⟩, ⟨11, .C⟩, ⟨6, .S⟩],
   [⟨10, .D⟩, ⟨9, .S⟩, ⟨7, .D⟩, ⟨13, .H⟩, ⟨9, .C⟩],
   [⟨6, .H⟩, ⟨11, .H⟩, ⟨3, .C⟩, ⟨3, .S⟩, ⟨10, .C⟩],
   [⟨8, .H⟩, ⟨4, .H⟩, ⟨14, .C⟩, ⟨7, .D⟩, ⟨4, .D⟩],
   [⟨9, .S⟩, ⟨8, .H⟩, ⟨2, .H⟩, ⟨12, .H⟩, ⟨3, .C⟩],
   [⟨14, .C⟩, ⟨10, .S⟩, ⟨11, .C⟩, ⟨14, .H⟩, ⟨7, .C⟩],
   [⟨7, .D⟩, ⟨13, .C⟩, ⟨7, .H⟩, ⟨11, .H⟩, ⟨9, .S⟩],
   [⟨11, .D⟩, ⟨14, .S⟩, ⟨9, .D⟩, ⟨3, .C⟩, ⟨3, .D⟩],
   [⟨6, .D⟩, ⟨9, .H⟩, ⟨13, .C⟩, ⟨12, .H⟩, ⟨3, .C⟩],
   [⟨2, .S⟩, ⟨13, .H⟩, ⟨13, .C⟩, ⟨6, .S⟩, ⟨12, .D⟩],
   [⟨11, .C⟩, ⟨12, .S⟩, ⟨9, .C⟩, ⟨6, .H⟩, ⟨13, .D⟩],
   [⟨8, .C⟩, ⟨12, .H⟩, ⟨7, .H⟩, ⟨2, .D⟩, ⟨9, .D⟩],
   [⟨7, .H⟩, ⟨4, .H⟩, ⟨11, .S⟩, ⟨3, .S⟩, ⟨9, .S⟩],
   [⟨2, .S⟩, ⟨5, .D⟩, ⟨14, .D⟩, ⟨6, .H⟩, ⟨4, .C⟩],
   [⟨13, .S⟩, ⟨5, .S⟩, ⟨8, .D⟩, ⟨9, .S⟩, ⟨3, .D⟩],
   [⟨4, .H⟩, ⟨9, .C⟩, ⟨8, .D⟩, ⟨10, .S⟩, ⟨6, .D⟩],
   [⟨4, .C⟩, ⟨8, .S⟩, ⟨10, .S⟩, ⟨6, .D⟩, ⟨13, .D⟩],
   [⟨8, .H⟩, ⟨7, .H⟩, ⟨12, .S⟩, ⟨8, .C⟩, ⟨5, .H⟩],
   [⟨4, .D⟩, ⟨3, .D⟩, ⟨4, .S⟩, ⟨5, .H⟩, ⟨12, .H⟩],
   [⟨5, .H⟩, ⟨2, .C⟩, ⟨9, .S⟩, ⟨11, .D⟩, ⟨4, .S⟩],
   [⟨6, .C⟩, ⟨6, .H⟩, ⟨2, .C⟩, ⟨4, .D⟩, ⟨8, .H⟩],
   [⟨10, .H⟩, ⟨7, .S⟩, ⟨11, .S⟩, ⟨11, .C⟩, ⟨7, .C⟩],
   [⟨4, .C⟩, ⟨13, .C⟩, ⟨10, .C⟩, ⟨11, .S⟩, ⟨12, .D⟩],
   [⟨12, .S⟩, ⟨13, .S⟩, ⟨2, .S⟩, ⟨9, .D⟩, ⟨14, .D⟩],
   [⟨12, .S⟩, ⟨14, .S⟩, ⟨10, .S⟩, ⟨8, .D⟩, ⟨3, .H⟩],
   [⟨9, .H⟩, ⟨12, .C⟩, ⟨8, .D⟩, ⟨2, .S⟩, ⟨5, .C⟩],
   [⟨3, .C⟩, ⟨5, .D⟩, ⟨9, .C⟩, ⟨4, .H⟩, ⟨3, .S⟩],
   [⟨7, .D⟩, ⟨11, .H⟩, ⟨2, .S⟩, ⟨3, .H⟩, ⟨2, .C⟩],
   [⟨11, .C⟩, ⟨4, .D⟩, ⟨10, .H⟩, ⟨3, .H⟩, ⟨7, .S⟩],
   [⟨11, .S⟩, ⟨2, .D⟩, ⟨3, .C⟩, ⟨5, .D⟩, ⟨8, .C⟩],
   [⟨4, .D⟩, ⟨12, .C⟩, ⟨6, .C⟩, ⟨7, .H⟩, ⟨11, .H⟩],
   [⟨7, .S⟩, ⟨9, .H⟩, ⟨3, .S⟩, ⟨9, .S⟩, ⟨9, .D⟩],
   [⟨9, .H⟩, ⟨6, .S⟩, ⟨3, .D⟩, ⟨4, .D⟩, ⟨3, .H⟩],
   [⟨13, .S⟩, ⟨7, .D⟩, ⟨6, .C⟩, ⟨9, .H⟩, ⟨13, .C⟩],
   [⟨4, .H⟩, ⟨10, .D⟩, ⟨2, .D⟩, ⟨5, .D⟩, ⟨7, .S⟩],
   [⟨4, .D⟩, ⟨13, .C⟩, ⟨10, .H⟩, ⟨2, .D⟩, ⟨14, .C⟩]]

/-- `cexR` without its first board: one of the legal draws of
`sample(n=50, with_replacement=False)` on `cexR`. -/
def cexS1 : List (List Card) := cexR.drop 1

/-- `cexR` without its board number 21: another legal draw. -/
def cexS2 : List (List Card) := cexR.take 21 ++ cexR.drop 22

/-- Board 21 of `cexR`: `[7D, KC, 7H, JH, 9S]`. -/
def cexG21 : List Card := [⟨7, .D⟩, ⟨13, .C⟩, ⟨7, .H⟩, ⟨11, .H⟩, ⟨9, .S⟩]

/-- Board 23 of `cexR`: `[6D, 9H, KC, QH, 3C]`. -/
def cexG23 : List Card := [⟨6, .D⟩, ⟨9, .H⟩, ⟨13, .C⟩, ⟨12, .H⟩, ⟨3, .C⟩]

/-- Board `i` of the counterexample candidate list (empty past the end). -/
def cexB (i : ℕ) : List Card := cexR.getD i []

instance (rivers sample : List (List Card)) :
    Decidable (legalSample rivers sample) := by
  unfold legalSample
  infer_instance

/-- A second sample board used in witnesses: `[7C, 8D, 9H, 10S, JC]`. -/
def exB2 : List Card :=
  [⟨7, .C⟩, ⟨8, .D⟩, ⟨9, .H⟩, ⟨10, .S⟩, ⟨11, .C⟩]

/-! ## Comparator lemmas -/

theorem flopStep_fst_le_two (aFlop : List ℤ) (gIdx gRank gSuit : ℤ)
    (st : List ℤ × List ℤ) : (flopStep aFlop gIdx gRank gSuit st).1 ≤ 2 := by
  unfold flopStep
  dsimp only
  split
  · simp
  · split <;> simp

theorem flopStep_fst_eq_two_iff (aFlop : List ℤ) (gIdx gRank gSuit : ℤ)
    (st : List ℤ × List ℤ) :
    (flopStep aFlop gIdx gRank gSuit st).1 = 2 ↔ gIdx ∈ aFlop := by
  unfold flopStep
  dsimp only
  split
  · simp_all
  · split <;> simp_all

theorem positionalColor_le_two (gIdx aIdx : ℤ) :
    positionalColor gIdx aIdx ≤ 2 := by
  unfold positionalColor
  split
  · simp
  · split <;> simp

theorem positionalColor_eq_two_iff (gIdx aIdx : ℤ) :
    positionalColor gIdx aIdx = 2 ↔ gIdx = aIdx := by
  unfold positionalColor
  split
  · simp_all
  · split <;> simp_all

theorem encodeColors_quint (a b c d e : ℕ) :
    encodeColors [a, b, c, d, e] =
      a * 10000 + b * 1000 + c * 100 + d * 10 + e := by
  norm_num [encodeColors, List.foldl]

/-- `cardIndex` is injective on in-deck cards. -/
theorem cardIndex_inj {c1 c2 : Card} (h1 : c1.wf) (h2 : c2.wf)
    (he : cardIndex c1 = cardIndex c2) : c1 = c2 := by
  obtain ⟨r1, s1⟩ := c1
  obtain ⟨r2, s2⟩ := c2
  obtain ⟨hlo1, hhi1⟩ := h1
  obtain ⟨hlo2, hhi2⟩ := h2
  simp only [Card.wf, cardIndex] at *
  cases s1 <;> cases s2 <;> simp [suitIndex] at he ⊢ <;> omega

/-! ## List helpers -/

theorem exists_five {α : Type _} (l : List α) (h : l.length = 5) :
    ∃ a b c d e, l = [a, b, c, d, e] := by
  rcases l with _ | ⟨a, l⟩
  · simp at h
  rcases l with _ | ⟨b, l⟩
  · simp at h
  rcases l with _ | ⟨c, l⟩
  · simp at h
  rcases l with _ | ⟨d, l⟩
  · simp at h
  rcases l with _ | ⟨e, l⟩
  · simp at h
  rcases l with _ | ⟨f, l⟩
  · exact ⟨a, b, c, d, e, rfl⟩
  · simp at h

theorem filter_eq_singleton_of_nodup {α : Type _} [DecidableEq α]
    (l : List α) (a : α) (hnd : l.Nodup) (ha : a ∈ l) :
    l.filter (fun x => x = a) = [a] := by
  induction l with
  | nil => simp at ha
  | cons b l ih =>
    rw [List.nodup_cons] at hnd
    rcases List.mem_cons.mp ha with h | h
    · subst h
      have : l.filter (fun x => x = a) = [] :=
        List.filter_eq_nil_iff.mpr fun x hx => by
          simp only [decide_eq_true_eq]
          exact fun hxa => hnd.1 (hxa ▸ hx)
      simp [List.filter, this]
    · have hba : ¬(b = a) := fun hba => hnd.1 (hba ▸ h)
      have hdec : decide (b = a) = false := by simp [hba]
      simp only [List.filter, hdec]
      exact ih hnd.2 h

theorem lookup_const (l : List (Card × Color)) (c : Card) (v : Color)
    (hall : ∀ p ∈ l, p.2 = v) (hmem : c ∈ l.map Prod.fst) :
    List.lookup c l = some v := by
  induction l with
  | nil => simp at hmem
  | cons p l ih =>
    by_cases hc : c = p.1
    · have : (c == p.1) = true := by simp [hc]
      simp [List.lookup, this, hall p (by simp)]
    · have : (c == p.1) = false := by simp [hc]
      simp only [List.lookup, this]
      refine ih (fun q hq => hall q (by simp [hq])) ?_
      rw [List.map_cons] at hmem
      rcases List.mem_cons.mp hmem with h | h
      · exact absurd h hc
      · exact h

/-! ## Comparator green characterization -/

theorem flopLoop_length (aFlop : List ℤ) (gs : List (ℤ × ℤ × ℤ))
    (st : List ℤ × List ℤ) : (flopLoop aFlop gs st).length = gs.length := by
  induction gs generalizing st with
  | nil => rfl
  | cons gg gs ih => simp [flopLoop, ih]

theorem flopLoop_mem_le_two (aFlop : List ℤ) (gs : List (ℤ × ℤ × ℤ))
    (st : List ℤ × List ℤ) : ∀ x ∈ flopLoop aFlop gs st, x ≤ 2 := by
  induction gs generalizing st with
  | nil => simp [flopLoop]
  | cons gg gs ih =>
    intro x hx
    rcases List.mem_cons.mp hx with h | h
    · exact h ▸ flopStep_fst_le_two aFlop gg.1 gg.2.1 gg.2.2 st
    · exact ih _ x h

theorem flopLoop_getD_eq_two_iff (aFlop : List ℤ) (gs : List (ℤ × ℤ × ℤ))
    (st : List ℤ × List ℤ) (i : ℕ) (h : i < gs.length) :
    ((flopLoop aFlop gs st).getD i 0 = 2) ↔ (gs.getD i default).1 ∈ aFlop := by
  induction gs generalizing st i with
  | nil => cases h
  | cons gg gs ih =>
    cases i with
    | zero =>
      simpa [flopLoop] using
        flopStep_fst_eq_two_iff aFlop gg.1 gg.2.1 gg.2.2 st
    | succ n =>
      have hn : n < gs.length := by simpa using h
      simpa [flopLoop] using ih _ n hn

/-- Perfect self-match: `compare(B, B) = 22222` for every 5-card board. -/
theorem compareBoards_self (b : List Card) (hb : b.length = 5) :
    compareBoards b b = 22222 := by
  obtain ⟨c0, c1, c2, c3, c4, rfl⟩ := exists_five b hb
  simp [compareBoards, compareTables, compareColors, flopLoop, flopStep,
    positionalColor, FLOP_SIZE, encodeColors]

/-- The all-green code characterizes boards whose flop is a permutation
of the guess flop and whose turn and river agree positionally. -/
theorem compareBoards_allgreen_iff (g a : List Card)
    (hg : g.length = 5) (ha : a.length = 5)
    (hgw : ∀ c ∈ g, c.wf) (haw : ∀ c ∈ a, c.wf)
    (hgnd : (g.take 3).Nodup) (hand : (a.take 3).Nodup) :
    compareBoards g a = 22222 ↔
      (g.take 3).Perm (a.take 3) ∧ g.drop 3 = a.drop 3 := by
  obtain ⟨g0, g1, g2, g3, g4, rfl⟩ := exists_five g hg
  obtain ⟨a0, a1, a2, a3, a4, rfl⟩ := exists_five a ha
  have hgw0 := hgw g0 (by simp)
  have hgw1 := hgw g1 (by simp)
  have hgw2 := hgw g2 (by simp)
  have hgw3 := hgw g3 (by simp)
  have hgw4 := hgw g4 (by simp)
  have haw0 := haw a0 (by simp)
  have haw1 := haw a1 (by simp)
  have haw2 := haw a2 (by simp)
  have haw3 := haw a3 (by simp)
  have haw4 := haw a4 (by simp)
  -- notation for the index lists
  set aF : List ℤ := [(cardIndex a0 : ℤ), (cardIndex a1 : ℤ), (cardIndex a2 : ℤ)] with haF
  set gs : List (ℤ × ℤ × ℤ) :=
    [((cardIndex g0 : ℤ), (cardIndex g0 : ℤ) / 4, (cardIndex g0 : ℤ) % 4),
     ((cardIndex g1 : ℤ), (cardIndex g1 : ℤ) / 4, (cardIndex g1 : ℤ) % 4),
     ((cardIndex g2 : ℤ), (cardIndex g2 : ℤ) / 4, (cardIndex g2 : ℤ) % 4)] with hgs
  set st0 : List ℤ × List ℤ := (aF.map (· / 4), aF.map (· % 4)) with hst0
  have hcc : compareBoards [g0, g1, g2, g3, g4] [a0, a1, a2, a3, a4] =
      encodeColors (flopLoop aF gs st0 ++
        [positionalColor (cardIndex g3 : ℤ) (cardIndex a3 : ℤ),
         positionalColor (cardIndex g4 : ℤ) (cardIndex a4 : ℤ)]) := rfl
  have hlen : (flopLoop aF gs st0).length = 3 := by
    rw [flopLoop_length]; rfl
  obtain ⟨x0, x1, x2, hF⟩ := List.length_eq_three.mp hlen
  -- membership characterization of each flop digit
  have hx0 : (x0 = 2) ↔ (cardIndex g0 : ℤ) ∈ aF := by
    have := flopLoop_getD_eq_two_iff aF gs st0 0 (by simp [hgs])
    rw [hF] at this
    simpa [hgs] using this
  have hx1 : (x1 = 2) ↔ (cardIndex g1 : ℤ) ∈ aF := by
    have := flopLoop_getD_eq_two_iff aF gs st0 1 (by simp [hgs])
    rw [hF] at this
    simpa [hgs] using this
  have hx2 : (x2 = 2) ↔ (cardIndex g2 : ℤ) ∈ aF := by
    have := flopLoop_getD_eq_two_iff aF gs st0 2 (by simp [hgs])
    rw [hF] at this
    simpa [hgs] using this
  have hb0 : x0 ≤ 2 := flopLoop_mem_le_two aF gs st0 x0 (by rw [hF]; simp)
  have hb1 : x1 ≤ 2 := flopLoop_mem_le_two aF gs st0 x1 (by rw [hF]; simp)
  have hb2 : x2 ≤ 2 := flopLoop_mem_le_two aF gs st0 x2 (by rw [hF]; simp)
  have hb3 := positionalColor_le_two (cardIndex g3 : ℤ) (cardIndex a3 : ℤ)
  have hb4 := positionalColor_le_two (cardIndex g4 : ℤ) (cardIndex a4 : ℤ)
  rw [hcc, hF]
  rw [show (([x0, x1, x2] : List ℕ) ++
      [positionalColor (cardIndex g3 : ℤ) (cardIndex a3 : ℤ),
       positionalColor (cardIndex g4 : ℤ) (cardIndex a4 : ℤ)]) =
      [x0, x1, x2, positionalColor (cardIndex g3 : ℤ) (cardIndex a3 : ℤ),
       positionalColor (cardIndex g4 : ℤ) (cardIndex a4 : ℤ)] from rfl]
  rw [encodeColors_quint]
  have hdigits : (x0 * 10000 + x1 * 1000 + x2 * 100 +
      positionalColor (cardIndex g3 : ℤ) (cardIndex a3 : ℤ) * 10 +
      positionalColor (cardIndex g4 : ℤ) (cardIndex a4 : ℤ) = 22222) ↔
      (x0 = 2 ∧ x1 = 2 ∧ x2 = 2 ∧
        positionalColor (cardIndex g3 : ℤ) (cardIndex a3 : ℤ) = 2 ∧
        positionalColor (cardIndex g4 : ℤ) (cardIndex a4 : ℤ) = 2) := by
    omega
  rw [hdigits, hx0, hx1, hx2, positionalColor_eq_two_iff,
    positionalColor_eq_two_iff]
  -- translate index facts to card facts
  have hidx : ∀ x y : Card, x.wf → y.wf →
      (((cardIndex x : ℤ) = (cardIndex y : ℤ)) ↔ x = y) := by
    intro x y hx hy
    constructor
    · intro h
      exact cardIndex_inj hx hy (by exact_mod_cast h)
    · intro h
      rw [h]
  have hmemIff : ∀ x : Card, x.wf →
      ((cardIndex x : ℤ) ∈ aF ↔ x ∈ [a0, a1, a2]) := by
    intro x hx
    simp only [haF, List.mem_cons, List.not_mem_nil, or_false]
    rw [hidx x a0 hx haw0, hidx x a1 hx haw1, hidx x a2 hx haw2]
  rw [hmemIff g0 hgw0, hmemIff g1 hgw1, hmemIff g2 hgw2,
    hidx g3 a3 hgw3 haw3, hidx g4 a4 hgw4 haw4]
  constructor
  · rintro ⟨hm0, hm1, hm2, h3, h4⟩
    refine ⟨?_, by simp [h3, h4]⟩
    have hsub : [g0, g1, g2] ⊆ [a0, a1, a2] := by
      intro x hx
      rcases List.mem_cons.mp hx with h | hx
      · exact h ▸ hm0
      rcases List.mem_cons.mp hx with h | hx
      · exact h ▸ hm1
      rcases List.mem_cons.mp hx with h | hx
      · exact h ▸ hm2
      · cases hx
    have hsp : List.Subperm [g0, g1, g2] [a0, a1, a2] :=
      List.subperm_of_subset (by simpa using hgnd) hsub
    exact hsp.perm_of_length_le (by simp)
  · rintro ⟨hperm, hdrop⟩
    have hsub := hperm.subset
    have hdrop' : g3 = a3 ∧ g4 = a4 := by
      simpa using hdrop
    exact ⟨hsub (by simp), hsub (by simp), hsub (by simp),
      hdrop'.1, hdrop'.2⟩

/-! ## Claims C1 and C2: the comparator's flop loop -/

/-- C1: the claim states that all flop greens are assigned before any
yellow, so that `compare([4C,9H,2C,AD,3D], [2C,9S,2S,4S,5S]) = 01200`.
The source's single interleaved loop instead lets position 0 (4C) take a
yellow from the 2C before position 2 claims its green, producing 11200.
This contradicts the repository's own regression test
`test_compare_tables_green_match_priority_over_yellow`, which asserts
1200 (= 01200): the code, not the claim, is at fault. -/
theorem comparator_green_priority_failing :
    compareBoards scenCGuess scenCAnswer = 11200 ∧
      compareBoards scenCGuess scenCAnswer ≠ 1200 := by
  decide

/-- C2: flop-permutation invariance in the guess fails on the source.
Transposing flop positions 0 and 2 of the Scenario C guess changes the
color multiset: the original colors are [1,1,2,0,0], so the claim
predicts [2,1,1,0,0] for the transposed guess (first three digits
permuted, digits 3-4 unchanged), but the source computes [2,1,0,0,0] —
position 2 (4C) goes grey because the green at position 0 has already
consumed the 2C.  (The same interleaving slip as C1; the intended
green-first two-pass comparator would satisfy the claim.) -/
theorem comparator_flop_permutation_failing :
    compareColorsBoards scenCGuess scenCAnswer = [1, 1, 2, 0, 0] ∧
    compareColorsBoards scenCGuessSwapped scenCAnswer = [2, 1, 0, 0, 0] ∧
    compareColorsBoards scenCGuessSwapped scenCAnswer ≠
      [(compareColorsBoards scenCGuess scenCAnswer).getD 2 0,
       (compareColorsBoards scenCGuess scenCAnswer).getD 1 0,
       (compareColorsBoards scenCGuess scenCAnswer).getD 0 0,
       (compareColorsBoards scenCGuess scenCAnswer).getD 3 0,
       (compareColorsBoards scenCGuess scenCAnswer).getD 4 0] := by
  decide

/-! ## Claims C5 and C6: the pruner -/

/-- C5: all-green closure.  For a candidate set `R` whose boards are
5-card in-deck boards with duplicate-free flops, in which each flop
multiset occurs with a single ordering (the invariant the enumerator
establishes and the pruner preserves), feeding back five greens on a
suggested board `G ∈ R` commits the candidate set to exactly `[G]`. -/
theorem pruner_all_green_closure (s : SolverState) (G : List Card)
    (R : List (List Card))
    (hmax : s.maxhTable = G) (hvalid : s.validTables = R)
    (hcomp : s.comparedAnswers = R) (hGR : G ∈ R) (hnd : R.Nodup)
    (hwf : ∀ A ∈ R, A.length = 5 ∧ (A.take 3).Nodup ∧ ∀ c ∈ A, c.wf)
    (hcanon : ∀ A ∈ R, ∀ B ∈ R,
      (A.take 3).Perm (B.take 3) → A.take 3 = B.take 3)
    (hprint : ∀ c ∈ G, c ∈ s.printMaxhTable)
    (hplen : s.printMaxhTable.length = RIVER_SIZE) :
    (nextTableGuess s [.g, .g, .g, .g, .g]).2 = .ok [G] ∧
    (nextTableGuess s [.g, .g, .g, .g, .g]).1.validTables = [G] := by
  obtain ⟨hGlen, hGnd, hGwf⟩ := hwf G hGR
  have hGne : G ≠ [] := by
    intro h
    rw [h] at hGlen
    simp at hGlen
  have hRne : R ≠ [] := List.ne_nil_of_mem hGR
  -- the remapped (or raw) colors encode to 22222
  have hremap : remapColors s.printMaxhTable [.g, .g, .g, .g, .g] G =
      G.map fun _ => Color.g := by
    unfold remapColors
    refine List.map_congr_left fun c hc => ?_
    have hall : ∀ p ∈ (s.printMaxhTable.zip
        [Color.g, .g, .g, .g, .g]).reverse, p.2 = Color.g := by
      intro p hp
      have := (List.of_mem_zip (List.mem_reverse.mp hp)).2
      simpa using this
    have hmem2 : c ∈ ((s.printMaxhTable.zip
        [Color.g, .g, .g, .g, .g]).reverse).map Prod.fst := by
      rw [List.map_reverse, List.mem_reverse,
        List.map_fst_zip _ _ (by simp [hplen, RIVER_SIZE])]
      exact hprint c hc
    rw [lookup_const _ c Color.g hall hmem2]
    rfl
  have hmapg : ∀ (l : List Card), l.length = 5 →
      encodeColors ((l.map fun _ => Color.g).map colorInt) = 22222 := by
    intro l hl
    obtain ⟨c0, c1, c2, c3, c4, rfl⟩ := exists_five l hl
    simp [encodeColors, colorInt]
  have hraw : encodeColors (([Color.g, .g, .g, .g, .g]).map colorInt) =
      22222 := by decide
  -- the filter keeps exactly G
  have hcong : ∀ a ∈ R, compareBoards G a = 22222 ↔ a = G := by
    intro a ha
    obtain ⟨halen, hanodup, hawf⟩ := hwf a ha
    rw [compareBoards_allgreen_iff G a hGlen halen hGwf hawf hGnd hanodup]
    constructor
    · rintro ⟨hperm, hdrop⟩
      have ht : G.take 3 = a.take 3 := hcanon G hGR a ha hperm
      calc a = a.take 3 ++ a.drop 3 := (List.take_append_drop 3 a).symm
        _ = G.take 3 ++ G.drop 3 := by rw [← ht, ← hdrop]
        _ = G := List.take_append_drop 3 G
    · rintro rfl
      exact ⟨List.Perm.refl _, rfl⟩
  have hfilter : (R.filter fun a => compareBoards G a = 22222) = [G] := by
    rw [List.filter_congr (q := fun a => a = G)
      (fun a ha => by
        simp only [decide_eq_decide]
        exact hcong a ha)]
    exact filter_eq_singleton_of_nodup R G hnd hGR
  -- now walk the function
  have hc1 : ¬(s.maxhTable = []) := by rw [hmax]; exact hGne
  have hc2 : ¬(s.validTables = []) := by rw [hvalid]; exact hRne
  have hc3 : ¬(s.maxhTable.length ≠ RIVER_SIZE) := by
    rw [hmax]
    simp [hGlen, RIVER_SIZE]
  have hc4 : ¬(([Color.g, .g, .g, .g, .g] : List Color).length ≠ RIVER_SIZE) := by
    simp [RIVER_SIZE]
  unfold nextTableGuess
  rw [if_neg hc1, if_neg hc2, if_neg hc3, if_neg hc4]
  dsimp only
  rw [hmax, hcomp]
  have hres : encodeColors ((if s.usedTables ≠ [] then
      remapColors s.printMaxhTable [Color.g, .g, .g, .g, .g] G
      else [Color.g, .g, .g, .g, .g]).map colorInt) = 22222 := by
    by_cases hused : s.usedTables ≠ []
    · rw [if_pos hused, hremap]
      exact hmapg G hGlen
    · rw [if_neg hused]
      exact hraw
  rw [hres, hfilter]
  have hne : ([G] : List (List Card)) ≠ [] := by simp
  rw [if_pos hne]
  exact ⟨rfl, rfl⟩

/-- C5 witness: a concrete two-board candidate set. -/
theorem pruner_all_green_closure_witness :
    (nextTableGuess ⟨[exB1, exB2], exB1, exB1, [], [], [exB1, exB2]⟩
      [.g, .g, .g, .g, .g]).2 = .ok [exB1] ∧
    (nextTableGuess ⟨[exB1, exB2], exB1, exB1, [], [], [exB1, exB2]⟩
      [.g, .g, .g, .g, .g]).1.validTables = [exB1] :=
  pruner_all_green_closure
    ⟨[exB1, exB2], exB1, exB1, [], [], [exB1, exB2]⟩ exB1 [exB1, exB2]
    rfl rfl rfl (by decide) (by decide) (by decide) (by decide) (by decide)
    (by decide)

/-- C6: atomicity of the pruner on inconsistent feedback.  When no
cached answer compares to the encoded observed colors, the call returns
an error and the candidate set (what `remaining()` reads) is exactly the
list from before the call. -/
theorem pruner_inconsistent_feedback_unchanged (s : SolverState)
    (cs : List Color) (hmaxne : s.maxhTable ≠ [])
    (hvne : s.validTables ≠ [])
    (hglen : s.maxhTable.length = RIVER_SIZE)
    (hclen : cs.length = RIVER_SIZE)
    (hsync : s.comparedAnswers = s.validTables)
    (hnone : ∀ A ∈ s.validTables, compareBoards s.maxhTable A ≠
      encodeColors ((if s.usedTables ≠ [] then
        remapColors s.printMaxhTable cs s.maxhTable else cs).map colorInt)) :
    (∃ msg, (nextTableGuess s cs).2 = Except.error msg) ∧
    (nextTableGuess s cs).1.validTables = s.validTables := by
  have hc3 : ¬(s.maxhTable.length ≠ RIVER_SIZE) := by simp [hglen]
  have hc4 : ¬(cs.length ≠ RIVER_SIZE) := by simp [hclen]
  have hfilter : (s.comparedAnswers.filter fun a =>
      compareBoards s.maxhTable a =
        encodeColors ((if s.usedTables ≠ [] then
          remapColors s.printMaxhTable cs s.maxhTable else cs).map
            colorInt)) = [] := by
    rw [hsync]
    exact List.filter_eq_nil_iff.mpr fun a ha => by
      simp only [decide_eq_true_eq]
      exact hnone a ha
  unfold nextTableGuess
  rw [if_neg hmaxne, if_neg hvne, if_neg hc3, if_neg hc4]
  dsimp only
  rw [hfilter]
  have hne : ¬(([] : List (List Card)) ≠ []) := by simp
  rw [if_neg hne]
  exact ⟨⟨_, rfl⟩, rfl⟩

/-- C6 witness: a one-board candidate set that cannot produce five
greens against a disjoint guess. -/
theorem pruner_inconsistent_feedback_unchanged_witness :
    (∃ msg, (nextTableGuess ⟨[exB1], exB2, exB2, [], [], [exB1]⟩
      [.g, .g, .g, .g, .g]).2 = Except.error msg) ∧
    (nextTableGuess ⟨[exB1], exB2, exB2, [], [], [exB1]⟩
      [.g, .g, .g, .g, .g]).1.validTables = [exB1] :=
  pruner_inconsistent_feedback_unchanged
    ⟨[exB1], exB2, exB2, [], [], [exB1]⟩ [.g, .g, .g, .g, .g]
    (by decide) (by decide) (by decide) (by decide) rfl (by decide)

/-! ## Enumerator structure lemmas -/

theorem mem_possibleFlops {cfg : SolverCfg} {t : List Card}
    {u : Finset Card} :
    (t, u) ∈ possibleFlops cfg ↔
      t ∈ List.sublistsLen FLOP_SIZE (currentDeck cfg) ∧
        evaluatePhase cfg t cfg.flopHandRanks none false = (true, u) := by
  unfold possibleFlops
  rw [List.mem_filterMap]
  constructor
  · rintro ⟨flop, hmem, hf⟩
    dsimp only at hf
    split at hf
    case isTrue hr =>
      have hp := Option.some.inj hf
      have h1 : flop = t := congrArg Prod.fst hp
      subst h1
      have h2 : (evaluatePhase cfg flop cfg.flopHandRanks none false).2 = u :=
        congrArg Prod.snd hp
      exact ⟨hmem, Prod.ext_iff.mpr ⟨hr, h2⟩⟩
    case isFalse => cases hf
  · rintro ⟨hmem, heval⟩
    exact ⟨t, hmem, by simp [heval]⟩

theorem mem_findValidNextPhase {cfg : SolverCfg}
    {prev : List (List Card × Finset Card)} {expected : List ℕ} {va : Bool}
    {t : List Card} {u : Finset Card} :
    (t, u) ∈ findValidNextPhase cfg prev expected va ↔
      ∃ pr ∈ prev, ∃ c ∈ currentDeck cfg, c ∉ pr.1 ∧ t = pr.1 ++ [c] ∧
        evaluatePhase cfg t expected (some pr.2) va = (true, u) := by
  unfold findValidNextPhase
  rw [List.mem_flatMap]
  constructor
  · rintro ⟨pr, hpr, hmem⟩
    rw [List.mem_filterMap] at hmem
    obtain ⟨c, hc, hf⟩ := hmem
    rw [List.mem_filter] at hc
    dsimp only at hf
    split at hf
    case isTrue hr =>
      have hp := Option.some.inj hf
      have h1 : pr.1 ++ [c] = t := congrArg Prod.fst hp
      have h2 : (evaluatePhase cfg (pr.1 ++ [c]) expected (some pr.2) va).2 =
          u := congrArg Prod.snd hp
      refine ⟨pr, hpr, c, hc.1, by simpa using hc.2, h1.symm, ?_⟩
      rw [← h1]
      exact Prod.ext_iff.mpr ⟨hr, h2⟩
    case isFalse => cases hf
  · rintro ⟨pr, hpr, c, hcdeck, hcnot, rfl, heval⟩
    refine ⟨pr, hpr, ?_⟩
    rw [List.mem_filterMap]
    exact ⟨c, List.mem_filter.mpr ⟨hcdeck, by simpa using hcnot⟩,
      by simp [heval]⟩

theorem masterDeck_nodup : MASTER_DECK.Nodup := by decide

theorem currentDeck_nodup (cfg : SolverCfg) : (currentDeck cfg).Nodup :=
  masterDeck_nodup.filter _

theorem currentDeck_not_hole (cfg : SolverCfg) :
    ∀ c ∈ currentDeck cfg, c ∉ allHoleCards cfg := by
  intro c hc
  rw [currentDeck, List.mem_filter] at hc
  simpa using hc.2

/-- Every board of `solve()` decomposes into an accepted flop, turn card
and river card. -/
theorem solveModel_decomp {cfg : SolverCfg} {B : List Card}
    (h : B ∈ solveModel cfg) :
    ∃ flop uF c4 uT c5 uR,
      flop ∈ List.sublistsLen FLOP_SIZE (currentDeck cfg) ∧
      evaluatePhase cfg flop cfg.flopHandRanks none false = (true, uF) ∧
      c4 ∈ currentDeck cfg ∧ c4 ∉ flop ∧
      evaluatePhase cfg (flop ++ [c4]) cfg.turnHandRanks (some uF) false =
        (true, uT) ∧
      c5 ∈ currentDeck cfg ∧ c5 ∉ flop ++ [c4] ∧
      evaluatePhase cfg (flop ++ [c4] ++ [c5]) cfg.riverHandRanks (some uT)
        true = (true, uR) ∧
      B = flop ++ [c4] ++ [c5] := by
  unfold solveModel possibleRivers possibleTurns at h
  rw [List.mem_map] at h
  obtain ⟨⟨t5, u5⟩, hmem, rfl⟩ := h
  rw [mem_findValidNextPhase] at hmem
  obtain ⟨⟨t4, u4⟩, hpr4, c5, hc5d, hc5n, ht5, heval5⟩ := hmem
  rw [mem_findValidNextPhase] at hpr4
  obtain ⟨⟨t3, u3⟩, hpr3, c4, hc4d, hc4n, ht4, heval4⟩ := hpr4
  rw [mem_possibleFlops] at hpr3
  obtain ⟨hflop, heval3⟩ := hpr3
  subst ht4
  subst ht5
  exact ⟨t3, u3, c4, u4, c5, u5, hflop, heval3, hc4d, hc4n, heval4,
    hc5d, hc5n, heval5, rfl⟩

/-- Inversion of an accepted phase evaluation: no ties, the accumulated
used-set equation, the river check, and the ordering match. -/
theorem evaluatePhase_true_inv {cfg : SolverCfg} {t : List Card}
    {expected : List ℕ} {prevUsed : Option (Finset Card)} {va : Bool}
    {u : Finset Card}
    (h : evaluatePhase cfg t expected prevUsed va = (true, u)) :
    pairwiseDistinctKeys cfg t ∧
    u = ((prevUsed.getD ∅) ∪ phaseUsed cfg t) \ allHoleCards cfg ∧
    (va = true → u = t.toFinset) ∧
    phaseOrder cfg t = expected := by
  unfold evaluatePhase at h
  dsimp only at h
  split at h
  case isTrue => simp at h
  case isFalse h21 =>
  split at h
  case isTrue => simp at h
  case isFalse h31 =>
  split at h
  case isTrue => simp at h
  case isFalse hv =>
  push_neg at h31
  have hb := congrArg Prod.fst h
  have hu := congrArg Prod.snd h
  simp only at hb hu
  refine ⟨⟨fun hx => h21 hx.symm, fun hx => h31.1 hx.symm,
    fun hx => h31.2 hx.symm⟩, ?_, ?_, of_decide_eq_true hb⟩
  · rw [← hu]
    cases prevUsed <;> simp
  · intro hva
    simp only [not_and, ne_eq, not_not] at hv
    rw [← hu]
    exact hv hva

/-- The used-set an evaluation reports, independent of acceptance, as
long as no ties fire. -/
theorem evaluatePhase_snd {cfg : SolverCfg} {t : List Card}
    {expected : List ℕ} {prevUsed : Option (Finset Card)} {va : Bool}
    (hkeys : pairwiseDistinctKeys cfg t) :
    (evaluatePhase cfg t expected prevUsed va).2 =
      ((prevUsed.getD ∅) ∪ phaseUsed cfg t) \ allHoleCards cfg := by
  obtain ⟨h12, h13, h23⟩ := hkeys
  unfold evaluatePhase
  dsimp only
  rw [if_neg (fun hx => h12 hx.symm),
    if_neg (fun hx => Or.elim hx (fun hy => h13 hy.symm)
      (fun hy => h23 hy.symm))]
  have hacc : ((match prevUsed with
      | some prev => prev ∪ phaseUsed cfg t
      | none => phaseUsed cfg t) : Finset Card) =
      (prevUsed.getD ∅) ∪ phaseUsed cfg t := by
    cases prevUsed <;> simp
  split
  · dsimp only
    rw [hacc]
  · dsimp only
    rw [hacc]

/-! ## Claims C7, C8, C9: invariants of the boards returned by solve() -/

/-- C7: every board of `solve()` has five pairwise distinct cards, none
of which is one of the six hole cards. -/
theorem solve_boards_distinct_and_disjoint (cfg : SolverCfg)
    (B : List Card) (h : B ∈ solveModel cfg) :
    B.length = 5 ∧ B.Nodup ∧ ∀ c ∈ B, c ∉ allHoleCards cfg := by
  obtain ⟨flop, uF, c4, uT, c5, uR, hflop, _, hc4d, hc4n, _, hc5d, hc5n,
    _, rfl⟩ := solveModel_decomp h
  obtain ⟨hsub, hflen⟩ := List.mem_sublistsLen.mp hflop
  have hdeck := currentDeck_nodup cfg
  have hfl_nd : flop.Nodup := hdeck.sublist hsub
  have hfl_deck : ∀ c ∈ flop, c ∈ currentDeck cfg :=
    fun c hc => hsub.subset hc
  have hc5nf : c5 ∉ flop ∧ c5 ≠ c4 := by
    constructor
    · exact fun hx => hc5n (by simp [hx])
    · exact fun hx => hc5n (by simp [hx])
  have hflen3 : flop.length = 3 := by simpa [FLOP_SIZE] using hflen
  refine ⟨by simp [hflen3], ?_, ?_⟩
  · simp only [List.nodup_append, List.nodup_cons, List.not_mem_nil,
      not_false_iff, List.nodup_nil, and_true, true_and]
    refine ⟨⟨hfl_nd, fun c hc => ?_⟩, fun c hc => ?_⟩
    · simp only [List.mem_singleton]
      exact fun hx => hc4n (hx ▸ hc)
    · rcases List.mem_append.mp hc with hcf | hcc
      · simp only [List.mem_singleton]
        exact fun hx => hc5nf.1 (hx ▸ hcf)
      · simp only [List.mem_singleton]
        rcases List.mem_singleton.mp hcc with rfl
        exact fun hx => hc5nf.2 hx.symm
  · intro c hc
    rcases List.mem_append.mp hc with hcx | hc5x
    · rcases List.mem_append.mp hcx with hcf | hcc
      · exact currentDeck_not_hole cfg c (hfl_deck c hcf)
      · rcases List.mem_singleton.mp hcc with rfl
        exact currentDeck_not_hole cfg c hc4d
    · rcases List.mem_singleton.mp hc5x with rfl
      exact currentDeck_not_hole cfg c hc5d

set_option maxHeartbeats 1000000 in
/-- C8: for every board of `solve()`, the union over the three phases of
the non-flush `best_five` sets, minus the hole cards, is exactly the set
of five board cards. -/
theorem solve_best_five_union (cfg : SolverCfg) (B : List Card)
    (h : B ∈ solveModel cfg) :
    bestFiveUnionMinusHoles cfg B = B.toFinset := by
  obtain ⟨flop, uF, c4, uT, c5, uR, hflop, hevF, _, _, hevT, _, _, hevR,
    rfl⟩ := solveModel_decomp h
  obtain ⟨hsub, hflen⟩ := List.mem_sublistsLen.mp hflop
  have hF := (evaluatePhase_true_inv hevF).2.1
  have hT := (evaluatePhase_true_inv hevT).2.1
  have hR := (evaluatePhase_true_inv hevR).2.1
  have hRfin := (evaluatePhase_true_inv hevR).2.2.1 rfl
  have hflen3 : flop.length = 3 := by simpa [FLOP_SIZE] using hflen
  have htake3 : (flop ++ [c4] ++ [c5]).take 3 = flop := by
    rw [List.append_assoc]
    exact List.take_left' hflen3
  have htake4 : (flop ++ [c4] ++ [c5]).take 4 = flop ++ [c4] :=
    List.take_left' (by simp [hflen3])
  unfold bestFiveUnionMinusHoles
  rw [htake3, htake4]
  rw [hT, hF] at hR
  rw [hR] at hRfin
  rw [← hRfin]
  ext x
  simp only [Finset.mem_sdiff, Finset.mem_union, Option.getD_some,
    Option.getD_none, Finset.not_mem_empty, false_or]
  tauto

set_option maxHeartbeats 1000000 in
/-- C9: for every board of `solve()`, re-evaluating the three hands at
the flop prefix, turn prefix and full board yields pairwise distinct
`(category, tiebreakers)` keys, and the strongest-to-weakest player
order equals the ordering supplied at construction for that phase. -/
theorem solve_phase_orderings (cfg : SolverCfg) (B : List Card)
    (h : B ∈ solveModel cfg) :
    (pairwiseDistinctKeys cfg (B.take 3) ∧
      phaseOrder cfg (B.take 3) = cfg.flopHandRanks) ∧
    (pairwiseDistinctKeys cfg (B.take 4) ∧
      phaseOrder cfg (B.take 4) = cfg.turnHandRanks) ∧
    (pairwiseDistinctKeys cfg B ∧
      phaseOrder cfg B = cfg.riverHandRanks) := by
  obtain ⟨flop, uF, c4, uT, c5, uR, hflop, hevF, _, _, hevT, _, _, hevR,
    rfl⟩ := solveModel_decomp h
  obtain ⟨hsub, hflen⟩ := List.mem_sublistsLen.mp hflop
  have hflen3 : flop.length = 3 := by simpa [FLOP_SIZE] using hflen
  have htake3 : (flop ++ [c4] ++ [c5]).take 3 = flop := by
    rw [List.append_assoc]
    exact List.take_left' hflen3
  have htake4 : (flop ++ [c4] ++ [c5]).take 4 = flop ++ [c4] :=
    List.take_left' (by simp [hflen3])
  have hF := evaluatePhase_true_inv hevF
  have hT := evaluatePhase_true_inv hevT
  have hR := evaluatePhase_true_inv hevR
  rw [htake3, htake4]
  exact ⟨⟨hF.1, hF.2.2.2⟩, ⟨hT.1, hT.2.2.2⟩, ⟨hR.1, hR.2.2.2⟩⟩

/-! ## Claim C10: only flushes are excluded from the used accumulator -/

/-- C10: only category-6 (flush) hands are excluded from the cards-used
accumulator; any other category — in particular a straight flush
(category 9) — contributes its `best_five` cards to the phase's used
set, hole cards aside. -/
theorem nonflush_hands_contribute (cfg : SolverCfg) (t : List Card)
    (expected : List ℕ) (prevUsed : Option (Finset Card)) (va : Bool)
    (hkeys : pairwiseDistinctKeys cfg t) :
    ∀ hole ∈ [cfg.p1hole, cfg.p2hole, cfg.p3hole],
      (rankHand t hole).rank ≠ HAND_RANK_FLUSH →
      ∀ c ∈ (rankHand t hole).bestHand, c ∉ allHoleCards cfg →
        c ∈ (evaluatePhase cfg t expected prevUsed va).2 := by
  intro hole hhole hnf c hc hch
  rw [evaluatePhase_snd hkeys]
  rw [Finset.mem_sdiff]
  refine ⟨Finset.mem_union_right _ ?_, hch⟩
  have hcontrib : c ∈ usedContribution (rankHand t hole) := by
    unfold usedContribution
    rw [if_neg hnf]
    exact List.mem_toFinset.mpr hc
  unfold phaseUsed
  rcases List.mem_cons.mp hhole with rfl | hhole
  · exact Finset.mem_union_left _ (Finset.mem_union_left _ hcontrib)
  rcases List.mem_cons.mp hhole with rfl | hhole
  · exact Finset.mem_union_left _ (Finset.mem_union_right _ hcontrib)
  rcases List.mem_cons.mp hhole with rfl | hhole
  · exact Finset.mem_union_right _ hcontrib
  · cases hhole

/-- The board `[5H, 6S, 7H, 4D, 3S]` is produced by `solve()` on
`exCfg`: the flop, turn and river evaluations all accept, and the flop
is a sublist of the remaining deck. -/
theorem exRiver_mem_solve : exRiver ∈ solveModel exCfg := by
  unfold solveModel possibleRivers possibleTurns
  rw [List.mem_map]
  refine ⟨(exRiver,
    (evaluatePhase exCfg exRiver exCfg.riverHandRanks (some exUT) true).2),
    ?_, rfl⟩
  rw [mem_findValidNextPhase]
  refine ⟨(exTurn, exUT), ?_, ⟨3, .S⟩, by decide, by decide, rfl, ?_⟩
  · rw [mem_findValidNextPhase]
    refine ⟨(exFlop, exUF), ?_, ⟨4, .D⟩, by decide, by decide, rfl, ?_⟩
    · rw [mem_possibleFlops]
      exact ⟨List.mem_sublistsLen.mpr ⟨by decide, by decide⟩,
        Prod.ext_iff.mpr ⟨by decide, rfl⟩⟩
    · exact Prod.ext_iff.mpr ⟨by decide, rfl⟩
  · exact Prod.ext_iff.mpr ⟨by decide, rfl⟩

/-- C7 witness: the invariants hold at the concrete board of `exCfg`. -/
theorem solve_boards_distinct_and_disjoint_witness :
    exRiver.length = 5 ∧ exRiver.Nodup ∧
      ∀ c ∈ exRiver, c ∉ allHoleCards exCfg :=
  solve_boards_distinct_and_disjoint exCfg exRiver exRiver_mem_solve

/-- C8 witness: the used-cards union equals the board set at the
concrete board of `exCfg`. -/
theorem solve_best_five_union_witness :
    bestFiveUnionMinusHoles exCfg exRiver = exRiver.toFinset :=
  solve_best_five_union exCfg exRiver exRiver_mem_solve

/-- C9 witness: the phase orderings hold at the concrete board of
`exCfg`. -/
theorem solve_phase_orderings_witness :
    (pairwiseDistinctKeys exCfg (exRiver.take 3) ∧
      phaseOrder exCfg (exRiver.take 3) = exCfg.flopHandRanks) ∧
    (pairwiseDistinctKeys exCfg (exRiver.take 4) ∧
      phaseOrder exCfg (exRiver.take 4) = exCfg.turnHandRanks) ∧
    (pairwiseDistinctKeys exCfg exRiver ∧
      phaseOrder exCfg exRiver = exCfg.riverHandRanks) :=
  solve_phase_orderings exCfg exRiver exRiver_mem_solve

/-! ## Entropy bridge: for equal-length profiles the Shannon entropy
order is the reverse of the integer weight order, so the selector's
argmax-entropy filter is the argmin-weight filter. -/

theorem codeCounts_pos (l : List ℕ) : ∀ c ∈ codeCounts l, 0 < c := by
  intro c hc
  unfold codeCounts at hc
  rw [List.mem_map] at hc
  obtain ⟨x, hx, rfl⟩ := hc
  exact List.count_pos_iff.mpr (List.mem_dedup.mp hx)

theorem codeCounts_sum (l : List ℕ) : (codeCounts l).sum = l.length :=
  List.sum_map_count_dedup_eq_length l

theorem entropyWeight_pos (l : List ℕ) : 0 < entropyWeight l := by
  unfold entropyWeight
  apply List.prod_pos
  intro a ha
  rw [List.mem_map] at ha
  obtain ⟨c, hc, rfl⟩ := ha
  exact pow_pos (codeCounts_pos l c hc) c

theorem entropy_sum_formula (n : ℝ) (hn : 0 < n) (cs : List ℕ)
    (hpos : ∀ c ∈ cs, 0 < c) :
    (cs.map fun (c : ℕ) =>
      -(((c : ℝ) / n) * Real.logb 2 ((c : ℝ) / n))).sum =
      ((cs.sum : ℝ) * Real.logb 2 n -
        Real.logb 2 (((cs.map fun c => c ^ c).prod : ℕ) : ℝ)) / n := by
  induction cs with
  | nil => simp
  | cons c cs ih =>
    have hc0 : 0 < c := hpos c (by simp)
    have hc : (0:ℝ) < (c:ℝ) := by exact_mod_cast hc0
    have hcs : ∀ x ∈ cs, 0 < x := fun x hx => hpos x (by simp [hx])
    have hwpos : 0 < (cs.map fun x => x ^ x).prod := by
      apply List.prod_pos
      intro a ha
      rw [List.mem_map] at ha
      obtain ⟨d, hd, rfl⟩ := ha
      exact pow_pos (hcs d hd) d
    have hwpos2 : (0:ℝ) < (((cs.map fun x => x ^ x).prod : ℕ) : ℝ) := by
      exact_mod_cast hwpos
    simp only [List.map_cons, List.sum_cons, List.prod_cons]
    rw [ih hcs]
    rw [Real.logb_div (ne_of_gt hc) (ne_of_gt hn)]
    have hcast : ((c ^ c * (cs.map fun x => x ^ x).prod : ℕ) : ℝ) =
        ((c : ℝ) ^ c) * (((cs.map fun x => x ^ x).prod : ℕ) : ℝ) := by
      push_cast
      ring
    rw [hcast, Real.logb_mul (by positivity) (ne_of_gt hwpos2),
      Real.logb_pow]
    push_cast
    field_simp
    ring

theorem profileEntropy_formula (l : List ℕ) (hl : l ≠ []) :
    profileEntropy l = Real.logb 2 l.length -
      Real.logb 2 (entropyWeight l) / l.length := by
  have hn : (0:ℝ) < l.length := by
    have := List.length_pos.mpr hl
    exact_mod_cast this
  unfold profileEntropy entropyWeight
  rw [entropy_sum_formula (l.length : ℝ) hn (codeCounts l)
    (codeCounts_pos l)]
  rw [codeCounts_sum]
  field_simp
  ring

theorem profileEntropy_le_iff (l1 l2 : List ℕ) (h1 : l1 ≠ [])
    (hlen : l1.length = l2.length) :
    profileEntropy l1 ≤ profileEntropy l2 ↔
      entropyWeight l2 ≤ entropyWeight l1 := by
  have h2 : l2 ≠ [] := by
    intro h
    subst h
    simp only [List.length_nil] at hlen
    exact h1 (List.length_eq_zero.mp hlen)
  have hn : (0:ℝ) < l2.length := by
    have := List.length_pos.mpr h2
    exact_mod_cast this
  have hw1 : (0:ℝ) < (entropyWeight l1 : ℝ) := by
    exact_mod_cast entropyWeight_pos l1
  have hw2 : (0:ℝ) < (entropyWeight l2 : ℝ) := by
    exact_mod_cast entropyWeight_pos l2
  rw [profileEntropy_formula l1 h1, profileEntropy_formula l2 h2, hlen]
  rw [sub_le_sub_iff_left, div_le_div_iff_of_pos_right hn,
    Real.logb_le_logb (by norm_num) hw2 hw1, Nat.cast_le]

theorem profileEntropy_lt_iff (l1 l2 : List ℕ) (h1 : l1 ≠ [])
    (hlen : l1.length = l2.length) :
    profileEntropy l1 < profileEntropy l2 ↔
      entropyWeight l2 < entropyWeight l1 := by
  have h2 : l2 ≠ [] := by
    intro h
    subst h
    simp only [List.length_nil] at hlen
    exact h1 (List.length_eq_zero.mp hlen)
  have hn : (0:ℝ) < l2.length := by
    have := List.length_pos.mpr h2
    exact_mod_cast this
  have hw1 : (0:ℝ) < (entropyWeight l1 : ℝ) := by
    exact_mod_cast entropyWeight_pos l1
  have hw2 : (0:ℝ) < (entropyWeight l2 : ℝ) := by
    exact_mod_cast entropyWeight_pos l2
  rw [profileEntropy_formula l1 h1, profileEntropy_formula l2 h2, hlen]
  rw [sub_lt_sub_iff_left, div_lt_div_iff_of_pos_right hn,
    Real.logb_lt_logb_iff (by norm_num) hw2 hw1, Nat.cast_lt]

theorem profileCodes_length (g : List Card) (answers : List (List Card)) :
    (profileCodes g answers).length = answers.length := by
  simp [profileCodes]

theorem profileCodes_ne_nil {g : List Card} {answers : List (List Card)}
    (hA : answers ≠ []) : profileCodes g answers ≠ [] := by
  simp [profileCodes, hA]

/-- Membership in the entropy-maximal filter, characterized through the
Shannon entropy of the code profiles. -/
theorem mem_maxEntropyTables_iff (pool answers : List (List Card))
    (g : List Card) (hA : answers ≠ []) :
    g ∈ maxEntropyTables pool answers ↔
      g ∈ pool ∧ ∀ g2 ∈ pool,
        profileEntropy (profileCodes g2 answers) ≤
          profileEntropy (profileCodes g answers) := by
  have hweights : ∀ ga gb : List Card,
      (profileEntropy (profileCodes ga answers) ≤
        profileEntropy (profileCodes gb answers) ↔
        entropyWeight (profileCodes gb answers) ≤
          entropyWeight (profileCodes ga answers)) := fun ga gb =>
    profileEntropy_le_iff _ _ (profileCodes_ne_nil hA)
      (by simp [profileCodes])
  have hmain : g ∈ maxEntropyTables pool answers ↔
      g ∈ pool ∧ ∀ g2 ∈ pool,
        entropyWeight (profileCodes g answers) ≤
          entropyWeight (profileCodes g2 answers) := by
    unfold maxEntropyTables
    dsimp only
    cases hmin : ((pool.map fun gg =>
        (gg, entropyWeight (profileCodes gg answers))).map Prod.snd).min?
      with
    | none =>
      rw [List.min?_eq_none_iff, List.map_eq_nil_iff,
        List.map_eq_nil_iff] at hmin
      subst hmin
      simp
    | some w =>
      have hspec := (List.min?_eq_some_iff (fun a => Nat.le_refl a)
        (fun a b => min_choice a b) (fun a b c => le_min_iff)).mp hmin
      constructor
      · intro hg
        rw [List.mem_map] at hg
        obtain ⟨p, hpf, hp1⟩ := hg
        rw [List.mem_filter] at hpf
        obtain ⟨hps, hpw⟩ := hpf
        rw [List.mem_map] at hps
        obtain ⟨g1, hg1, hpeq⟩ := hps
        have hg1g : g1 = g := by
          rw [← hp1, ← hpeq]
        subst hg1g
        have hwg : entropyWeight (profileCodes g1 answers) = w := by
          have := of_decide_eq_true hpw
          rw [← hpeq] at this
          exact this
        refine ⟨hg1, fun g2 hg2 => ?_⟩
        rw [hwg]
        refine hspec.2 _ ?_
        rw [List.mem_map]
        exact ⟨(g2, entropyWeight (profileCodes g2 answers)),
          List.mem_map.mpr ⟨g2, hg2, rfl⟩, rfl⟩
      · rintro ⟨hg, hminval⟩
        have hwmem : w ∈ (pool.map fun gg =>
            (gg, entropyWeight (profileCodes gg answers))).map Prod.snd :=
          hspec.1
        rw [List.mem_map] at hwmem
        obtain ⟨p, hps, hpw⟩ := hwmem
        rw [List.mem_map] at hps
        obtain ⟨g3, hg3, hpeq⟩ := hps
        have hw3 : entropyWeight (profileCodes g3 answers) = w := by
          rw [← hpw, ← hpeq]
        have hle : entropyWeight (profileCodes g answers) ≤ w :=
          hw3 ▸ hminval g3 hg3
        have hge : w ≤ entropyWeight (profileCodes g answers) := by
          refine hspec.2 _ ?_
          rw [List.mem_map]
          exact ⟨(g, entropyWeight (profileCodes g answers)),
            List.mem_map.mpr ⟨g, hg, rfl⟩, rfl⟩
        have hwg : entropyWeight (profileCodes g answers) = w :=
          Nat.le_antisymm hle hge
        rw [List.mem_map]
        refine ⟨(g, entropyWeight (profileCodes g answers)), ?_, rfl⟩
        rw [List.mem_filter]
        exact ⟨List.mem_map.mpr ⟨g, hg, rfl⟩, by simp [hwg]⟩
  rw [hmain]
  constructor
  · rintro ⟨hg, hw⟩
    exact ⟨hg, fun g2 hg2 => (hweights g2 g).mpr (hw g2 hg2)⟩
  · rintro ⟨hg, hent⟩
    exact ⟨hg, fun g2 hg2 => (hweights g2 g).mp (hent g2 hg2)⟩

/-! ## Claims C3 and C4: the sampling guess selector -/

/-! Per-guess profile weights of the counterexample boards against the
full candidate list, one small kernel evaluation each. -/

set_option maxRecDepth 10000 in
set_option maxHeartbeats 4000000 in
/-- Weight of board 0's profile against the full candidate list. -/
theorem cexWEq0 :
    entropyWeight (profileCodes (cexB 0) cexR) = 226373776118382592 := by
  decide

set_option maxRecDepth 10000 in
set_option maxHeartbeats 4000000 in
theorem cexWEq1 :
    entropyWeight (profileCodes (cexB 1) cexR) = 7644119040000000000 := by
  decide

set_option maxRecDepth 10000 in
set_option maxHeartbeats 4000000 in
theorem cexWEq2 :
    entropyWeight (profileCodes (cexB 2) cexR) = 28682781685383168 := by
  decide

set_option maxRecDepth 10000 in
set_option maxHeartbeats 4000000 in
theorem cexWEq3 :
    entropyWeight (profileCodes (cexB 3) cexR) = 240734712102912 := by
  decide

set_option maxRecDepth 10000 in
set_option maxHeartbeats 4000000 in
theorem cexWEq4 :
    entropyWeight (profileCodes (cexB 4) cexR) = 60004836858013286400000 := by
  decide

set_option maxRecDepth 10000 in
set_option maxHeartbeats 4000000 in
theorem cexWEq5 :
    entropyWeight (profileCodes (cexB 5) cexR) = 43873901280755712 := by
  decide

set_option maxRecDepth 10000 in
set_option maxHeartbeats 4000000 in
theorem cexWEq6 :
    entropyWeight (profileCodes (cexB 6) cexR) = 39137889484800000 := by
  decide

set_option maxRecDepth 10000 in
set_option maxHeartbeats 4000000 in
theorem cexWEq7 :
    entropyWeight (profileCodes (cexB 7) cexR) = 1269499458355200000 := by
  decide

set_option maxRecDepth 10000 in
set_option maxHeartbeats 4000000 in
theorem cexWEq8 :
    entropyWeight (profileCodes (cexB 8) cexR) = 86566749478060032 := by
  decide

set_option maxRecDepth 10000 in
set_option maxHeartbeats 4000000 in
theorem cexWEq9 :
    entropyWeight (profileCodes (cexB 9) cexR) = 21767823360000000000 := by
  decide

set_option maxRecDepth 10000 in
set_option maxHeartbeats 4000000 in
theorem cexWEq10 :
    entropyWeight (profileCodes (cexB 10) cexR) = 2519424000000000000000 := by
  decide

set_option maxRecDepth 10000 in
set_option maxHeartbeats 4000000 in
theorem cexWEq11 :
    entropyWeight (profileCodes (cexB 11) cexR) = 4127824281600000 := by
  decide

set_option maxRecDepth 10000 in
set_option maxHeartbeats 4000000 in
theorem cexWEq12 :
    entropyWeight (profileCodes (cexB 12) cexR) = 122305904640000000000 := by
  decide

set_option maxRecDepth 10000 in
set_option maxHeartbeats 4000000 in
theorem cexWEq13 :
    entropyWeight (profileCodes (cexB 13) cexR) = 215892499727278669824 := by
  decide

set_option maxRecDepth 10000 in
set_option maxHeartbeats 4000000 in
theorem cexWEq14 :
    entropyWeight (profileCodes (cexB 14) cexR) = 71706954213457920000000000 := by
  decide

set_option maxRecDepth 10000 in
set_option maxHeartbeats 4000000 in
theorem cexWEq15 :
    entropyWeight (profileCodes (cexB 15) cexR) = 503620858124697600000 := by
  decide

set_option maxRecDepth 10000 in
set_option maxHeartbeats 4000000 in
theorem cexWEq16 :
    entropyWeight (profileCodes (cexB 16) cexR) = 584325558976905216 := by
  decide

set_option maxRecDepth 10000 in
set_option maxHeartbeats 4000000 in
theorem cexWEq17 :
    entropyWeight (profileCodes (cexB 17) cexR) = 7132880358604800000 := by
  decide

set_option maxRecDepth 10000 in
set_option maxHeartbeats 4000000 in
theorem cexWEq18 :
    entropyWeight (profileCodes (cexB 18) cexR) = 2564940725275852800000 := by
  decide

set_option maxRecDepth 10000 in
set_option maxHeartbeats 4000000 in
theorem cexWEq19 :
    entropyWeight (profileCodes (cexB 19) cexR) = 3009183901286400000 := by
  decide

set_option maxRecDepth 10000 in
set_option maxHeartbeats 4000000 in
theorem cexWEq20 :
    entropyWeight (profileCodes (cexB 20) cexR) = 264180754022400000 := by
  decide

set_option maxRecDepth 10000 in
set_option maxHeartbeats 4000000 in
theorem cexWEq21 :
    entropyWeight (profileCodes (cexB 21) cexR) = 1007769600000 := by
  decide

set_option maxRecDepth 10000 in
set_option maxHeartbeats 4000000 in
theorem cexWEq22 :
    entropyWeight (profileCodes (cexB 22) cexR) = 5736556337076633600000 := by
  decide

set_option maxRecDepth 10000 in
set_option maxHeartbeats 4000000 in
theorem cexWEq23 :
    entropyWeight (profileCodes (cexB 23) cexR) = 1415577600000 := by
  decide

set_option maxRecDepth 10000 in
set_option maxHeartbeats 4000000 in
theorem cexWEq24 :
    entropyWeight (profileCodes (cexB 24) cexR) = 252428641478023053312 := by
  decide

set_option maxRecDepth 10000 in
set_option maxHeartbeats 4000000 in
theorem cexWEq25 :
    entropyWeight (profileCodes (cexB 25) cexR) = 66045188505600000 := by
  decide

set_option maxRecDepth 10000 in
set_option maxHeartbeats 4000000 in
theorem cexWEq26 :
    entropyWeight (profileCodes (cexB 26) cexR) = 48146942420582400000 := by
  decide

set_option maxRecDepth 10000 in
set_option maxHeartbeats 4000000 in
theorem cexWEq27 :
    entropyWeight (profileCodes (cexB 27) cexR) = 829941599692800000 := by
  decide

set_option maxRecDepth 10000 in
set_option maxHeartbeats 4000000 in
theorem cexWEq28 :
    entropyWeight (profileCodes (cexB 28) cexR) = 1741425868800000 := by
  decide

set_option maxRecDepth 10000 in
set_option maxHeartbeats 4000000 in
theorem cexWEq29 :
    entropyWeight (profileCodes (cexB 29) cexR) = 1165789023436800000 := by
  decide

set_option maxRecDepth 10000 in
set_option maxHeartbeats 4000000 in
theorem cexWEq30 :
    entropyWeight (profileCodes (cexB 30) cexR) = 95501436799942656 := by
  decide

set_option maxRecDepth 10000 in
set_option maxHeartbeats 4000000 in
theorem cexWEq31 :
    entropyWeight (profileCodes (cexB 31) cexR) = 25035128648484167614464 := by
  decide

set_option maxRecDepth 10000 in
set_option maxHeartbeats 4000000 in
theorem cexWEq32 :
    entropyWeight (profileCodes (cexB 32) cexR) = 285165762261639971733504 := by
  decide

set_option maxRecDepth 10000 in
set_option maxHeartbeats 4000000 in
theorem cexWEq33 :
    entropyWeight (profileCodes (cexB 33) cexR) = 29216277948845260800000 := by
  decide

set_option maxRecDepth 10000 in
set_option maxHeartbeats 4000000 in
theorem cexWEq34 :
    entropyWeight (profileCodes (cexB 34) cexR) = 31476303632793600000 := by
  decide

set_option maxRecDepth 10000 in
set_option maxHeartbeats 4000000 in
theorem cexWEq35 :
    entropyWeight (profileCodes (cexB 35) cexR) = 5706304286883840000000000 := by
  decide

set_option maxRecDepth 10000 in
set_option maxHeartbeats 4000000 in
theorem cexWEq36 :
    entropyWeight (profileCodes (cexB 36) cexR) = 1835698027864522752 := by
  decide

set_option maxRecDepth 10000 in
set_option maxHeartbeats 4000000 in
theorem cexWEq37 :
    entropyWeight (profileCodes (cexB 37) cexR) = 196147433569753667690873856 := by
  decide

set_option maxRecDepth 10000 in
set_option maxHeartbeats 4000000 in
theorem cexWEq38 :
    entropyWeight (profileCodes (cexB 38) cexR) = 150459195064320000000000 := by
  decide

set_option maxRecDepth 10000 in
set_option maxHeartbeats 4000000 in
theorem cexWEq39 :
    entropyWeight (profileCodes (cexB 39) cexR) = 47109242787194574301298688 := by
  decide

set_option maxRecDepth 10000 in
set_option maxHeartbeats 4000000 in
theorem cexWEq40 :
    entropyWeight (profileCodes (cexB 40) cexR) = 60183678025728 := by
  decide

set_option maxRecDepth 10000 in
set_option maxHeartbeats 4000000 in
theorem cexWEq41 :
    entropyWeight (profileCodes (cexB 41) cexR) = 535570083993600000 := by
  decide

set_option maxRecDepth 10000 in
set_option maxHeartbeats 4000000 in
theorem cexWEq42 :
    entropyWeight (profileCodes (cexB 42) cexR) = 801543976648704 := by
  decide

set_option maxRecDepth 10000 in
set_option maxHeartbeats 4000000 in
theorem cexWEq43 :
    entropyWeight (profileCodes (cexB 43) cexR) = 35664401793024 := by
  decide

set_option maxRecDepth 10000 in
set_option maxHeartbeats 4000000 in
theorem cexWEq44 :
    entropyWeight (profileCodes (cexB 44) cexR) = 201553920000000000 := by
  decide

set_option maxRecDepth 10000 in
set_option maxHeartbeats 4000000 in
theorem cexWEq45 :
    entropyWeight (profileCodes (cexB 45) cexR) = 991796451840000000000 := by
  decide

set_option maxRecDepth 10000 in
set_option maxHeartbeats 4000000 in
theorem cexWEq46 :
    entropyWeight (profileCodes (cexB 46) cexR) = 5540271966595842048 := by
  decide

set_option maxRecDepth 10000 in
set_option maxHeartbeats 4000000 in
theorem cexWEq47 :
    entropyWeight (profileCodes (cexB 47) cexR) = 864000000000000000 := by
  decide

set_option maxRecDepth 10000 in
set_option maxHeartbeats 4000000 in
theorem cexWEq48 :
    entropyWeight (profileCodes (cexB 48) cexR) = 13743895347200000 := by
  decide

set_option maxRecDepth 10000 in
set_option maxHeartbeats 4000000 in
theorem cexWEq49 :
    entropyWeight (profileCodes (cexB 49) cexR) = 2460375000000000000 := by
  decide

set_option maxRecDepth 10000 in
set_option maxHeartbeats 4000000 in
theorem cexWEq50 :
    entropyWeight (profileCodes (cexB 50) cexR) = 3131031158784 := by
  decide

set_option maxRecDepth 4000 in
/-- The first legal draw is boards 1 to 50 of `cexR`. -/
theorem cexS1_eq :
    cexS1 =
     [ cexB 1, cexB 2, cexB 3, cexB 4, cexB 5, cexB 6, cexB 7, cexB 8,
      cexB 9, cexB 10, cexB 11, cexB 12, cexB 13, cexB 14, cexB 15,
      cexB 16, cexB 17, cexB 18, cexB 19, cexB 20, cexB 21, cexB 22,
      cexB 23, cexB 24, cexB 25, cexB 26, cexB 27, cexB 28, cexB 29,
      cexB 30, cexB 31, cexB 32, cexB 33, cexB 34, cexB 35, cexB 36,
      cexB 37, cexB 38, cexB 39, cexB 40, cexB 41, cexB 42, cexB 43,
      cexB 44, cexB 45, cexB 46, cexB 47, cexB 48, cexB 49, cexB 50] := by
  decide

set_option maxRecDepth 4000 in
/-- The second legal draw is every board of `cexR` except board 21. -/
theorem cexS2_eq :
    cexS2 =
     [ cexB 0, cexB 1, cexB 2, cexB 3, cexB 4, cexB 5, cexB 6, cexB 7,
      cexB 8, cexB 9, cexB 10, cexB 11, cexB 12, cexB 13, cexB 14,
      cexB 15, cexB 16, cexB 17, cexB 18, cexB 19, cexB 20, cexB 22,
      cexB 23, cexB 24, cexB 25, cexB 26, cexB 27, cexB 28, cexB 29,
      cexB 30, cexB 31, cexB 32, cexB 33, cexB 34, cexB 35, cexB 36,
      cexB 37, cexB 38, cexB 39, cexB 40, cexB 41, cexB 42, cexB 43,
      cexB 44, cexB 45, cexB 46, cexB 47, cexB 48, cexB 49, cexB 50] := by
  decide

set_option maxRecDepth 10000 in
set_option maxHeartbeats 4000000 in
/-- Weight of board 21's profile when the *sampled* boards serve as the
answer set. -/
theorem cexWS21 :
    entropyWeight (profileCodes cexG21 cexS1) = 1007769600000 := by
  decide

set_option maxRecDepth 10000 in
set_option maxHeartbeats 4000000 in
/-- Weight of board 23's profile when the sampled boards serve as the
answer set. -/
theorem cexWS23 :
    entropyWeight (profileCodes cexG23 cexS1) = 353894400000 := by
  decide

set_option maxRecDepth 10000 in
set_option maxHeartbeats 4000000 in
/-- On `cexR` with the legal draw `cexS1`, the selector's
entropy-maximal set is exactly board 21: each sampled guess's weight is
rewritten to its precomputed value, after which the minimum and the
filter evaluate cheaply. -/
theorem cexS1_selection : getMaxhCandidates cexR cexS1 true = [cexG21] := by
  unfold getMaxhCandidates getMaxhPool
  rw [if_pos ⟨rfl, by decide⟩]
  rw [cexS1_eq]
  unfold maxEntropyTables
  dsimp only
  simp only [List.map_cons, List.map_nil]
  simp only [cexWEq1, cexWEq2, cexWEq3, cexWEq4, cexWEq5, cexWEq6, cexWEq7,
    cexWEq8, cexWEq9, cexWEq10, cexWEq11, cexWEq12, cexWEq13, cexWEq14,
    cexWEq15, cexWEq16, cexWEq17, cexWEq18, cexWEq19, cexWEq20, cexWEq21,
    cexWEq22, cexWEq23, cexWEq24, cexWEq25, cexWEq26, cexWEq27, cexWEq28,
    cexWEq29, cexWEq30, cexWEq31, cexWEq32, cexWEq33, cexWEq34, cexWEq35,
    cexWEq36, cexWEq37, cexWEq38, cexWEq39, cexWEq40, cexWEq41, cexWEq42,
    cexWEq43, cexWEq44, cexWEq45, cexWEq46, cexWEq47, cexWEq48, cexWEq49,
    cexWEq50]
  decide

set_option maxRecDepth 10000 in
set_option maxHeartbeats 4000000 in
/-- On `cexR` with the legal draw `cexS2`, the selector's
entropy-maximal set is exactly board 23. -/
theorem cexS2_selection : getMaxhCandidates cexR cexS2 true = [cexG23] := by
  unfold getMaxhCandidates getMaxhPool
  rw [if_pos ⟨rfl, by decide⟩]
  rw [cexS2_eq]
  unfold maxEntropyTables
  dsimp only
  simp only [List.map_cons, List.map_nil]
  simp only [cexWEq0, cexWEq1, cexWEq2, cexWEq3, cexWEq4, cexWEq5, cexWEq6,
    cexWEq7, cexWEq8, cexWEq9, cexWEq10, cexWEq11, cexWEq12, cexWEq13,
    cexWEq14, cexWEq15, cexWEq16, cexWEq17, cexWEq18, cexWEq19, cexWEq20,
    cexWEq22, cexWEq23, cexWEq24, cexWEq25, cexWEq26, cexWEq27, cexWEq28,
    cexWEq29, cexWEq30, cexWEq31, cexWEq32, cexWEq33, cexWEq34, cexWEq35,
    cexWEq36, cexWEq37, cexWEq38, cexWEq39, cexWEq40, cexWEq41, cexWEq42,
    cexWEq43, cexWEq44, cexWEq45, cexWEq46, cexWEq47, cexWEq48, cexWEq49,
    cexWEq50]
  decide

/-- C3 (amended): when sampling engages (more than 50 candidates), the
pool of scored guesses is the drawn *sample*, each sampled guess is
evaluated against the *full* candidate list as answers, and the
returned guess maximizes the Shannon entropy among the sampled guesses
— the draw samples candidate guesses, not answers. -/
theorem sampling_pool_characterization (rivers sample : List (List Card))
    (g : List Card) (hlen : 50 < rivers.length) :
    g ∈ getMaxhCandidates rivers sample true ↔
      g ∈ sample ∧ ∀ g2 ∈ sample,
        profileEntropy (profileCodes g2 rivers) ≤
          profileEntropy (profileCodes g rivers) := by
  have hA : rivers ≠ [] := by
    intro h
    rw [h] at hlen
    simp at hlen
  unfold getMaxhCandidates getMaxhPool
  rw [if_pos ⟨rfl, hlen⟩]
  exact mem_maxEntropyTables_iff sample rivers g hA

/-- C3 amended witness, at the concrete 51-board candidate list. -/
theorem sampling_pool_characterization_witness :
    50 < cexR.length ∧
    (cexG21 ∈ getMaxhCandidates cexR cexS1 true ↔
      cexG21 ∈ cexS1 ∧ ∀ g2 ∈ cexS1,
        profileEntropy (profileCodes g2 cexR) ≤
          profileEntropy (profileCodes cexG21 cexR)) :=
  ⟨by decide, sampling_pool_characterization cexR cexS1 cexG21 (by decide)⟩

set_option maxRecDepth 10000 in
set_option maxHeartbeats 4000000 in
/-- C3 counterexample: the claim says the selector evaluates every
candidate guess in `R` against the sampled answers and returns the
guess of `R` maximizing that approximate entropy.  On the 51-board
candidate list `cexR` with the legal draw `cexS1`, the code returns
board 21 — a member of the sample — although board 23 of `R` has
strictly larger entropy against the sampled answers: the selector
samples guesses and scores them against the full answer set, the
opposite of the claim. -/
theorem sampling_answers_counterexample :
    legalSample cexR cexS1 ∧
    getMaxhCandidates cexR cexS1 true = [cexG21] ∧
    cexG23 ∈ cexR ∧
    profileEntropy (profileCodes cexG21 cexS1) <
      profileEntropy (profileCodes cexG23 cexS1) := by
  refine ⟨by decide, cexS1_selection, by decide, ?_⟩
  rw [profileEntropy_lt_iff _ _
    (profileCodes_ne_nil (by decide)) (by simp [profileCodes])]
  rw [cexWS23, cexWS21]
  decide

/-- C4 (amended): with at most 50 candidates the sampling branch never
engages and the selector is a pure function of the candidate list: the
entropy-maximal set is independent of any drawn sample and equals the
exact-entropy selection over the candidate list itself. -/
theorem selector_no_sampling_deterministic
    (rivers s1 s2 : List (List Card)) (u : Bool)
    (h : rivers.length ≤ 50) :
    getMaxhCandidates rivers s1 u = getMaxhCandidates rivers s2 u ∧
    getMaxhCandidates rivers s1 u = maxEntropyTables rivers rivers := by
  unfold getMaxhCandidates getMaxhPool
  have hc : ¬(u = true ∧ 50 < rivers.length) := fun hx => by omega
  rw [if_neg hc, if_neg hc]
  exact ⟨rfl, rfl⟩

/-- C4 amended witness: a two-board candidate list is below the
threshold, so the selection ignores the sample argument. -/
theorem selector_no_sampling_deterministic_witness :
    ([exB1, exB2] : List (List Card)).length ≤ 50 ∧
    (getMaxhCandidates [exB1, exB2] [] true =
      getMaxhCandidates [exB1, exB2] [exB1] true ∧
     getMaxhCandidates [exB1, exB2] [] true =
      maxEntropyTables [exB1, exB2] [exB1, exB2]) :=
  ⟨by decide,
    selector_no_sampling_deterministic [exB1, exB2] [] [exB1] true
      (by decide)⟩

/-- C4 counterexample: the selector's draw is unseeded
(`rivers_df.sample(n=50)` takes no seed, and `get_maxh_table` exposes
none), so two legal executions on the same candidate set may suggest
different boards: with draw `cexS1` the unique suggestion is board 21,
with draw `cexS2` it is board 23.  The suggestion is therefore not a
function of (candidate set, seed) as the claim requires. -/
theorem selector_sample_dependence_counterexample :
    legalSample cexR cexS1 ∧ legalSample cexR cexS2 ∧
    getMaxhCandidates cexR cexS1 true = [cexG21] ∧
    getMaxhCandidates cexR cexS2 true = [cexG23] ∧
    cexG21 ≠ cexG23 :=
  ⟨by decide, by decide, cexS1_selection, cexS2_selection, by decide⟩

/-- C10 witness: in the royal-flush scenario P1's category is 9
(a straight flush, all five cards suited), and its board card 10H still
lands in the phase's used set. -/
theorem nonflush_hands_contribute_witness :
    pairwiseDistinctKeys exCfg10 exTable10 ∧
    (rankHand exTable10 exCfg10.p1hole).rank = HAND_RANK_STRAIGHT_FLUSH ∧
    (⟨10, .H⟩ : Card) ∈
      (evaluatePhase exCfg10 exTable10 [1, 2, 3] none false).2 :=
  ⟨by decide, by decide,
    nonflush_hands_contribute exCfg10 exTable10 [1, 2, 3] none false
      (by decide) exCfg10.p1hole (by simp) (by decide) ⟨10, .H⟩
      (by decide) (by decide)⟩

end Pokle
